import Mathlib

/-!
# goVPSie: backups, firewall groups and projects services

A shallow embedding of `backup.go`, `firewallGroup.go` and `project.go`.

Every handler of the three services has the same shape: it formats a path,
builds a request value, asks the client for a request (`NewRequest`), and, if
that succeeded, hands the request and a decode target to the client (`Do`).
The client itself is declared outside these three files, so its two methods are
parameters of the embedding (`Client.newRequestFn`, `Client.doFn`); every call a
handler makes to them is recorded in a trace (`Traced.calls`).

Conventions of the embedding
* a Go `error` is `Option Err` (`none` is `nil`);
* a Go pointer `*T` is `Option T` (`none` is `nil`);
* a Go slice `[]T` is `Slice T = Option (List T)` (`none` is the nil slice);
* Go `int`, `int64` are `Int`, `uint64` is `Nat` (no arithmetic is done on them);
* `fmt.Sprintf` with `%s` verbs and string arguments is string concatenation.
-/

set_option linter.unusedVariables false

namespace GoVPSie

/-! ## Go runtime values -/

/-- A non-nil Go `error` value, identified by its message. -/
structure Err where
  msg : String
  deriving DecidableEq, Repr, Inhabited

/-- Go slice: `none` is the nil slice, `some l` a non-nil slice with elements `l`. -/
abbrev Slice (α : Type) := Option (List α)

/-- Stand-in for `context.Context`; the handlers only pass it on. -/
structure Context where
  id : Nat
  deriving DecidableEq, Repr, Inhabited

/-- Stand-in for `http.Request`; the handlers only pass the pointer on. -/
structure Request where
  Method : String
  URL : String
  Body : String
  deriving DecidableEq, Repr, Inhabited

/-- Stand-in for `time.Time`. -/
structure Time where
  sec : Int
  nsec : Nat
  deriving DecidableEq, Repr, Inhabited

/-- Constants `http.MethodGet`, `http.MethodPost`, `http.MethodPut`, `http.MethodDelete`. -/
def MethodGet : String := "GET"

def MethodPost : String := "POST"

def MethodPut : String := "PUT"

def MethodDelete : String := "DELETE"

/-- Modelled from the spec: the type `ListOptions` is declared outside the three
files; the spec describes it as page number, page size and optional filter
key/value pairs. -/
structure ListOptions where
  Page : Int
  PerPage : Int
  Filters : List (String × String)
  deriving DecidableEq, Repr, Inhabited

/-! ## backup.go: types -/

def backupsPath : String := "/apps/v2"

structure EnableAutoBackupReq where
  VmIdentifier : String
  VmID : Int
  Period : String
  AutoBackup : Int
  WeeklyBackup : Int
  MonthlyBackup : Int
  Tags : Slice String
  deriving DecidableEq, Repr, Inhabited

structure Backup where
  HostName : String
  Name : String
  Identifier : String
  Note : String
  BackupKey : String
  State : String
  DcIdentifier : String
  VMIdentifier : String
  BoxID : Int
  BackupSHA1 : String
  OSFullName : String
  VMCategory : String
  CreatedBy : String
  CreatedOn : String
  deriving DecidableEq, Repr, Inhabited

structure ListBackupsRoot where
  Error : Bool
  Data : Slice Backup
  Total : Int
  deriving DecidableEq, Repr, Inhabited

/-- The anonymous struct type of `GetBackupsRoot.Data`. -/
structure GetBackupsRootData where
  Backup : Backup
  deriving DecidableEq, Repr, Inhabited

structure GetBackupsRoot where
  Error : Bool
  Data : GetBackupsRootData
  deriving DecidableEq, Repr, Inhabited

structure BackupPolicy where
  Name : String
  Identifier : String
  CreatedOn : String
  CreatedBy : String
  BackupPlan : String
  PlanEvery : Int
  Keep : Int
  Disabled : Int
  UserId : Int
  Vms : Slice String
  deriving DecidableEq, Repr, Inhabited

structure BackupPolicyListDetail where
  Name : String
  Identifier : String
  CreatedOn : String
  CreatedBy : String
  BackupPlan : String
  PlanEvery : Int
  Keep : Int
  Disabled : Int
  VmsCount : Int
  UserId : Int
  deriving DecidableEq, Repr, Inhabited

/-- The anonymous struct type of `ListBackupPoliciesRoot.Data`. -/
structure ListBackupPoliciesRootData where
  Rows : Slice BackupPolicyListDetail
  deriving DecidableEq, Repr, Inhabited

structure ListBackupPoliciesRoot where
  Error : Bool
  Data : ListBackupPoliciesRootData
  deriving DecidableEq, Repr, Inhabited

structure GetBackupPolicyRoot where
  Error : Bool
  Data : BackupPolicy
  deriving DecidableEq, Repr, Inhabited

structure CreateBackupPolicyReq where
  Name : String
  BackupPlan : String
  PlanEvery : String
  Keep : String
  Vms : Slice String
  Tags : Slice String
  deriving DecidableEq, Repr, Inhabited

/-! ## firewallGroup.go: types -/

def firewallGroupBasePath : String := "/apps/v2/firewall"

structure VmsData where
  Hostname : String
  Identifier : String
  Fullname : String
  Category : String
  deriving DecidableEq, Repr, Inhabited

structure FirewallRule where
  ID : Int
  GroupID : Int
  UserID : Int
  Action : String
  Type_ : String
  Comment : String
  Dest : Slice String
  Dport : String
  Proto : String
  Source : Slice String
  Sport : String
  Enable : Int
  Iface : String
  Log : String
  Macro : String
  Identifier : String
  CreatedOn : Time
  UpdatedOn : Time
  deriving DecidableEq, Repr, Inhabited

structure FirewallGroupListData where
  UserName : String
  ID : Int
  GroupName : String
  Identifier : String
  CreatedOn : String
  UpdatedOn : String
  InboundCount : Int
  OutboundCount : Int
  Vms : Int
  CreatedBy : Int
  Rules : Slice FirewallRule
  VmsData : Slice VmsData
  deriving DecidableEq, Repr, Inhabited

structure FirewallGroup where
  UserName : String
  ID : Int
  GroupName : String
  Identifier : String
  CreatedOn : String
  UpdatedOn : String
  InboundCount : Int
  OutboundCount : Int
  Vms : Int
  CreatedBy : Int
  deriving DecidableEq, Repr, Inhabited

structure FirewallGroupDetailData where
  Group : FirewallGroup
  Rules : Slice FirewallRule
  Vms : Slice VmsData
  Count : Int
  deriving DecidableEq, Repr, Inhabited

structure ListFirewallGroupsRoot where
  Error : Bool
  Data : Slice FirewallGroupListData
  Total : Int
  deriving DecidableEq, Repr, Inhabited

structure GetFirewallGroupRoot where
  Error : Bool
  Data : FirewallGroupDetailData
  deriving DecidableEq, Repr, Inhabited

structure FirewallUpdateReq where
  Action : String
  Type_ : String
  Dport : String
  Proto : String
  Source : Slice String
  Sport : String
  Enable : Int
  Macro : String
  Comment : String
  Dest : Slice String
  deriving DecidableEq, Repr, Inhabited

/-! ## project.go: types -/

def projectsBasePath : String := "/apps/v2/projects"

structure Project where
  ID : Nat
  Name : String
  Description : String
  CreatedOn : String
  UpdatedAt : String
  Identifier : String
  CreatedBy : Nat
  IsDefault : Int
  deriving DecidableEq, Repr, Inhabited

structure CreateProjectRequest where
  Name : String
  Description : String
  deriving DecidableEq, Repr, Inhabited

structure Data where
  Rows : Slice Project
  Count : Int
  deriving DecidableEq, Repr, Inhabited

structure ProjectsRoot where
  Error : Bool
  Data : Data
  deriving DecidableEq, Repr, Inhabited

structure ProjectRoot where
  Error : Bool
  Project : Option Project
  deriving DecidableEq, Repr, Inhabited

structure UserLimit where
  BackupsLimit : Int
  SnapshotLimit : Int
  FirewallLimit : Int
  BucketsLimit : Int
  CertificatesLimit : Int
  DNSDomainsLimit : Int
  deriving DecidableEq, Repr, Inhabited

structure ListUserLimitRoot where
  Error : Bool
  Data : UserLimit
  deriving DecidableEq, Repr, Inhabited

/-- Modelled from the spec: the type `VmData` is declared outside the three
files and none of its fields is used in them; `raw` stands for its content. -/
structure VmData where
  raw : String
  deriving DecidableEq, Repr, Inhabited

/-- Modelled from the spec: the type `ListServerRoot` is declared outside the
three files; `project.go` uses only its field `Data`, a slice of `VmData`, and
the spec gives every envelope an `error` flag. -/
structure ListServerRoot where
  Error : Bool
  Data : Slice VmData
  deriving DecidableEq, Repr, Inhabited

/-- Modelled from the spec: the type `Domain` is declared outside the three
files and none of its fields is used in them; `raw` stands for its content. -/
structure Domain where
  raw : String
  deriving DecidableEq, Repr, Inhabited

/-- Modelled from the spec: the type `ListDomainRoot` is declared outside the
three files; `project.go` uses only its field `Data`, a slice of `Domain`, and
the spec gives every envelope an `error` flag. -/
structure ListDomainRoot where
  Error : Bool
  Data : Slice Domain
  deriving DecidableEq, Repr, Inhabited

/-! ## The client boundary -/

/-- A field value of a request struct built by a handler. -/
inductive FieldVal
  | str (s : String)
  | int (n : Int)
  | strs (l : Slice String)
  | strStruct (fields : List (String × String))
  | rules (l : Slice FirewallUpdateReq)
  deriving DecidableEq, Repr

/-- The `body interface{}` argument of `NewRequest`. A struct literal is the
list of its fields in declaration order, each keyed by its `json` tag. -/
inductive Body
  | nil
  | structVal (fields : List (String × FieldVal))
  | structPtr (fields : List (String × FieldVal))
  | enableAutoBackupReq (p : Option EnableAutoBackupReq)
  | createBackupPolicyReq (p : Option CreateBackupPolicyReq)
  | createProjectRequest (p : Option CreateProjectRequest)
  | firewallUpdateReq (p : Option FirewallUpdateReq)
  deriving DecidableEq, Repr

/-- Fields of a struct-literal body (by value or behind a pointer). -/
def Body.fields : Body → List (String × FieldVal)
  | Body.structVal fs => fs
  | Body.structPtr fs => fs
  | _ => []

/-- The field of a struct-literal body with the given `json` key. -/
def Body.field (b : Body) (key : String) : Option FieldVal :=
  (b.fields.find? (fun kv => kv.1 == key)).map (fun kv => kv.2)

/-- The static type of the `v interface{}` argument of `Do`. `nil` is the
untyped nil; `listFirewallGroupsRootPtr` is `**ListFirewallGroupsRoot`, the type
of `&fwGroups` in the firewall `List`; every other target is a pointer to the
named root struct. -/
inductive Target
  | nil
  | listBackupsRoot
  | getBackupsRoot
  | listBackupPoliciesRoot
  | getBackupPolicyRoot
  | listFirewallGroupsRootPtr
  | getFirewallGroupRoot
  | projectsRoot
  | projectRoot
  | listServerRoot
  | listDomainRoot
  | listUserLimitRoot
  deriving DecidableEq, Repr

/-- What `Do` can read and overwrite through its target: the pointed-to root
struct, or, for `&fwGroups`, the pointer variable `fwGroups` itself. -/
@[reducible] def Target.type : Target → Type
  | Target.nil => Unit
  | Target.listBackupsRoot => ListBackupsRoot
  | Target.getBackupsRoot => GetBackupsRoot
  | Target.listBackupPoliciesRoot => ListBackupPoliciesRoot
  | Target.getBackupPolicyRoot => GetBackupPolicyRoot
  | Target.listFirewallGroupsRootPtr => Option ListFirewallGroupsRoot
  | Target.getFirewallGroupRoot => GetFirewallGroupRoot
  | Target.projectsRoot => ProjectsRoot
  | Target.projectRoot => ProjectRoot
  | Target.listServerRoot => ListServerRoot
  | Target.listDomainRoot => ListDomainRoot
  | Target.listUserLimitRoot => ListUserLimitRoot

/-- One call made by a handler to the client. -/
inductive Call
  | NewRequest (ctx : Context) (method : String) (path : String) (body : Body)
  | Do (ctx : Context) (req : Option Request) (t : Target) (v : t.type)

/-- The client, declared outside the three files: an arbitrary behaviour of its
two methods. `newRequestFn` returns `(*http.Request, error)`; `doFn` returns
what it left in the target together with its `error`. -/
structure Client where
  newRequestFn : Context → String → String → Body → Option Request × Option Err
  doFn : Context → Option Request → (t : Target) → t.type → t.type × Option Err

/-- A computation together with the client calls it made, in order. -/
structure Traced (α : Type) where
  val : α
  calls : List Call

instance : Monad Traced where
  pure a := ⟨a, []⟩
  bind m f := ⟨(f m.val).val, m.calls ++ (f m.val).calls⟩

/-- The call `c.NewRequest(ctx, method, path, body)`. -/
def Client.NewRequest (c : Client) (ctx : Context) (method path : String) (body : Body) :
    Traced (Option Request × Option Err) :=
  ⟨c.newRequestFn ctx method path body, [Call.NewRequest ctx method path body]⟩

/-- The call `c.Do(ctx, req, v)`. -/
def Client.Do (c : Client) (ctx : Context) (req : Option Request) (t : Target) (v : t.type) :
    Traced (t.type × Option Err) :=
  ⟨c.doFn ctx req t v, [Call.Do ctx req t v]⟩

/-- How a Go function call ends: it returns, or it panics (here only by a nil
pointer dereference). -/
inductive Outcome (α : Type)
  | returned (a : α)
  | panicked
  deriving DecidableEq, Repr

/-! ## backup.go: handlers -/

structure backupsServiceHandler where
  client : Client

def backupsServiceHandler.List (b : backupsServiceHandler) (ctx : Context)
    (options : Option ListOptions) : Traced (Slice Backup × Option Err) := do
  let path := backupsPath ++ "/backups"
  let (req, err) ← b.client.NewRequest ctx MethodGet path Body.nil
  match err with
  | some e => return (none, some e)
  | none =>
    let backups : ListBackupsRoot := default
    let (backups, err) ← b.client.Do ctx req Target.listBackupsRoot backups
    match err with
    | some e => return (none, some e)
    | none => return (backups.Data, none)

def backupsServiceHandler.DeleteBackup (b : backupsServiceHandler) (ctx : Context)
    (backupIdentifier deleteReason deleteNote : String) : Traced (Option Err) := do
  let path := backupsPath ++ "/backup"
  let deleteReq := Body.structPtr [
    ("backupIdentifier", FieldVal.str backupIdentifier),
    ("deleteStatistic", FieldVal.strStruct [("reason", deleteReason), ("note", deleteNote)])]
  let (req, err) ← b.client.NewRequest ctx MethodDelete path deleteReq
  match err with
  | some e => return some e
  | none =>
    let (_, err) ← b.client.Do ctx req Target.nil ()
    return err

def backupsServiceHandler.CreateBackups (b : backupsServiceHandler) (ctx : Context)
    (vmIdentifier name notes : String) : Traced (Option Err) := do
  let path := backupsPath ++ "/backup/add"
  let createBackupReq := Body.structPtr [
    ("vmIdentifier", FieldVal.str vmIdentifier),
    ("name", FieldVal.str name)]
  let (req, err) ← b.client.NewRequest ctx MethodPost path createBackupReq
  match err with
  | some e => return some e
  | none =>
    let (_, err) ← b.client.Do ctx req Target.nil ()
    return err

def backupsServiceHandler.ListByServer (b : backupsServiceHandler) (ctx : Context)
    (options : Option ListOptions) (serverId : String) : Traced (Slice Backup × Option Err) := do
  let path := backupsPath ++ "/vm/backups/" ++ serverId
  let (req, err) ← b.client.NewRequest ctx MethodGet path Body.nil
  match err with
  | some e => return (none, some e)
  | none =>
    let backups : ListBackupsRoot := default
    let (backups, err) ← b.client.Do ctx req Target.listBackupsRoot backups
    match err with
    | some e => return (none, some e)
    | none => return (backups.Data, none)

def backupsServiceHandler.CreateServerByBackup (b : backupsServiceHandler) (ctx : Context)
    (backupIdentifier : String) : Traced (Option Err) := do
  let path := backupsPath ++ "/backups/create"
  let createServerReq := Body.structPtr [
    ("backupIdentifier", FieldVal.str backupIdentifier)]
  let (req, err) ← b.client.NewRequest ctx MethodPost path createServerReq
  match err with
  | some e => return some e
  | none =>
    let (_, err) ← b.client.Do ctx req Target.nil ()
    return err

def backupsServiceHandler.Get (b : backupsServiceHandler) (ctx : Context)
    (identifer : String) : Traced (Option Backup × Option Err) := do
  let path := backupsPath ++ "/backup/" ++ identifer
  let (req, err) ← b.client.NewRequest ctx MethodGet path Body.nil
  match err with
  | some e => return (none, some e)
  | none =>
    let backup : GetBackupsRoot := default
    let (backup, err) ← b.client.Do ctx req Target.getBackupsRoot backup
    match err with
    | some e => return (none, some e)
    | none => return (some backup.Data.Backup, none)

def backupsServiceHandler.EnableAutoBackup (b : backupsServiceHandler) (ctx : Context)
    (enableAutoReq : Option EnableAutoBackupReq) : Traced (Option Err) := do
  let path := backupsPath ++ "/backups/enable/auto"
  let (req, err) ← b.client.NewRequest ctx MethodPost path (Body.enableAutoBackupReq enableAutoReq)
  match err with
  | some e => return some e
  | none =>
    let (_, err) ← b.client.Do ctx req Target.nil ()
    return err

def backupsServiceHandler.Rename (b : backupsServiceHandler) (ctx : Context)
    (backupIdentifier newName : String) : Traced (Option Err) := do
  let path := backupsPath ++ "/backups/update/name"
  let renameReq := Body.structPtr [
    ("identifier", FieldVal.str backupIdentifier),
    ("new_name", FieldVal.str newName)]
  let (req, err) ← b.client.NewRequest ctx MethodPut path renameReq
  match err with
  | some e => return some e
  | none =>
    let (_, err) ← b.client.Do ctx req Target.nil ()
    return err

def backupsServiceHandler.ListBackupPolicies (b : backupsServiceHandler) (ctx : Context)
    (options : Option ListOptions) : Traced (Slice BackupPolicyListDetail × Option Err) := do
  let path := backupsPath ++ "/backups/policy/all"
  let (req, err) ← b.client.NewRequest ctx MethodGet path Body.nil
  match err with
  | some e => return (none, some e)
  | none =>
    let policies : ListBackupPoliciesRoot := default
    let (policies, err) ← b.client.Do ctx req Target.listBackupPoliciesRoot policies
    match err with
    | some e => return (none, some e)
    | none => return (policies.Data.Rows, none)

def backupsServiceHandler.GetBackupPolicy (b : backupsServiceHandler) (ctx : Context)
    (identifier : String) : Traced (Option BackupPolicy × Option Err) := do
  let path := backupsPath ++ "/backups/policy/" ++ identifier
  let (req, err) ← b.client.NewRequest ctx MethodGet path Body.nil
  match err with
  | some e => return (none, some e)
  | none =>
    let policy : GetBackupPolicyRoot := default
    let (policy, err) ← b.client.Do ctx req Target.getBackupPolicyRoot policy
    match err with
    | some e => return (none, some e)
    | none => return (some policy.Data, none)

def backupsServiceHandler.CreateBackupPolicy (b : backupsServiceHandler) (ctx : Context)
    (createReq : Option CreateBackupPolicyReq) : Traced (Option Err) := do
  let path := backupsPath ++ "/backups/policy/create"
  let (req, err) ← b.client.NewRequest ctx MethodPost path (Body.createBackupPolicyReq createReq)
  match err with
  | some e => return some e
  | none =>
    let (_, err) ← b.client.Do ctx req Target.nil ()
    return err

def backupsServiceHandler.DeleteBackupPolicy (b : backupsServiceHandler) (ctx : Context)
    (policyId identifier : String) : Traced (Option Err) := do
  let path := backupsPath ++ "/backup/policy/" ++ identifier
  let deleteBackup := Body.structVal [
    ("policyId", FieldVal.str policyId)]
  let (req, err) ← b.client.NewRequest ctx MethodDelete path deleteBackup
  match err with
  | some e => return some e
  | none =>
    let (_, err) ← b.client.Do ctx req Target.nil ()
    return err

def backupsServiceHandler.ManageRetainBackupPolicy (b : backupsServiceHandler) (ctx : Context)
    (policyId : String) (keep : Int) : Traced (Option Err) := do
  let path := backupsPath ++ "/backups/policy/keep"
  let manageBackup := Body.structVal [
    ("policyId", FieldVal.str policyId),
    ("keep", FieldVal.int keep)]
  let (req, err) ← b.client.NewRequest ctx MethodPost path manageBackup
  match err with
  | some e => return some e
  | none =>
    let (_, err) ← b.client.Do ctx req Target.nil ()
    return err

def backupsServiceHandler.AttachBackupPolicy (b : backupsServiceHandler) (ctx : Context)
    (policyId : String) (vms : Slice String) : Traced (Option Err) := do
  let path := backupsPath ++ "/backups/policy/attach"
  let attachBackup := Body.structVal [
    ("policyId", FieldVal.str policyId),
    ("vms", FieldVal.strs vms)]
  let (req, err) ← b.client.NewRequest ctx MethodPost path attachBackup
  match err with
  | some e => return some e
  | none =>
    let (_, err) ← b.client.Do ctx req Target.nil ()
    return err

def backupsServiceHandler.DetachBackupPolicy (b : backupsServiceHandler) (ctx : Context)
    (policyId : String) (vms : Slice String) : Traced (Option Err) := do
  let path := backupsPath ++ "/backups/policy/detach"
  let detachBackup := Body.structVal [
    ("policyId", FieldVal.str policyId),
    ("vms", FieldVal.strs vms)]
  let (req, err) ← b.client.NewRequest ctx MethodPost path detachBackup
  match err with
  | some e => return some e
  | none =>
    let (_, err) ← b.client.Do ctx req Target.nil ()
    return err

/-! ## firewallGroup.go: handlers -/

structure firewallGroupServiceHandler where
  client : Client

def firewallGroupServiceHandler.Create (f : firewallGroupServiceHandler) (ctx : Context)
    (groupName : String) (firewallUpdateReq : Slice FirewallUpdateReq) : Traced (Option Err) := do
  let fwGroupReq := Body.structPtr [
    ("groupName", FieldVal.str groupName),
    ("rules", FieldVal.rules firewallUpdateReq)]
  let path := firewallGroupBasePath ++ "/create/group"
  let (req, err) ← f.client.NewRequest ctx MethodPost path fwGroupReq
  match err with
  | some e => return some e
  | none =>
    let (_, err) ← f.client.Do ctx req Target.nil ()
    return err

/-- The firewall `List` hands `Do` the address of the pointer variable
`fwGroups` (`&fwGroups`), so `Do` may leave that pointer nil; the following
`fwGroups.Data` then dereferences a nil pointer and the call panics. -/
def firewallGroupServiceHandler.List (f : firewallGroupServiceHandler) (ctx : Context)
    (options : Option ListOptions) :
    Traced (Outcome (Slice FirewallGroupListData × Option Err)) := do
  let path := firewallGroupBasePath ++ "/groups"
  let (req, err) ← f.client.NewRequest ctx MethodGet path Body.nil
  match err with
  | some e => return Outcome.returned (none, some e)
  | none =>
    let fwGroups : Option ListFirewallGroupsRoot := some default
    let (fwGroups, err) ← f.client.Do ctx req Target.listFirewallGroupsRootPtr fwGroups
    match err with
    | some e => return Outcome.returned (none, some e)
    | none =>
      match fwGroups with
      | some root => return Outcome.returned (root.Data, none)
      | none => return Outcome.panicked

def firewallGroupServiceHandler.Get (f : firewallGroupServiceHandler) (ctx : Context)
    (fwGroupId : String) : Traced (Option FirewallGroupDetailData × Option Err) := do
  let path := firewallGroupBasePath ++ "/group/" ++ fwGroupId
  let (req, err) ← f.client.NewRequest ctx MethodGet path Body.nil
  match err with
  | some e => return (none, some e)
  | none =>
    let fwGroup : GetFirewallGroupRoot := default
    let (fwGroup, err) ← f.client.Do ctx req Target.getFirewallGroupRoot fwGroup
    match err with
    | some e => return (none, some e)
    | none => return (some fwGroup.Data, none)

def firewallGroupServiceHandler.Delete (f : firewallGroupServiceHandler) (ctx : Context)
    (fwGroupId : String) : Traced (Option Err) := do
  let path := firewallGroupBasePath ++ "/delete/group"
  let delReq := Body.structPtr [
    ("groupId", FieldVal.str fwGroupId)]
  let (req, err) ← f.client.NewRequest ctx MethodDelete path delReq
  match err with
  | some e => return some e
  | none =>
    let (_, err) ← f.client.Do ctx req Target.nil ()
    return err

def firewallGroupServiceHandler.AssignToVpsie (f : firewallGroupServiceHandler) (ctx : Context)
    (groupId vmId : String) : Traced (Option Err) := do
  let path := firewallGroupBasePath ++ "/setGroupVm"
  let assignReq := Body.structVal [
    ("vmId", FieldVal.str vmId),
    ("groupId", FieldVal.str groupId)]
  let (req, err) ← f.client.NewRequest ctx MethodPost path assignReq
  match err with
  | some e => return some e
  | none =>
    let (_, err) ← f.client.Do ctx req Target.nil ()
    return err

def firewallGroupServiceHandler.AttachToVpsie (f : firewallGroupServiceHandler) (ctx : Context)
    (groupId vmId : String) : Traced (Option Err) := do
  let path := firewallGroupBasePath ++ "/attach/group"
  let assignReq := Body.structVal [
    ("vmId", FieldVal.str vmId),
    ("groupId", FieldVal.str groupId)]
  let (req, err) ← f.client.NewRequest ctx MethodPost path assignReq
  match err with
  | some e => return some e
  | none =>
    let (_, err) ← f.client.Do ctx req Target.nil ()
    return err

def firewallGroupServiceHandler.DetachFromVpsie (f : firewallGroupServiceHandler) (ctx : Context)
    (groupId vmId : String) : Traced (Option Err) := do
  let path := firewallGroupBasePath ++ "/detach/group"
  let assignReq := Body.structVal [
    ("vmId", FieldVal.str vmId),
    ("groupId", FieldVal.str groupId)]
  let (req, err) ← f.client.NewRequest ctx MethodPost path assignReq
  match err with
  | some e => return some e
  | none =>
    let (_, err) ← f.client.Do ctx req Target.nil ()
    return err

def firewallGroupServiceHandler.Update (f : firewallGroupServiceHandler) (ctx : Context)
    (fwGroupReq : Option FirewallUpdateReq) (fwGroupId : String) : Traced (Option Err) := do
  let path := firewallGroupBasePath ++ "/groups/" ++ fwGroupId
  let (req, err) ← f.client.NewRequest ctx MethodPost path (Body.firewallUpdateReq fwGroupReq)
  match err with
  | some e => return some e
  | none =>
    let (_, err) ← f.client.Do ctx req Target.nil ()
    return err

def firewallGroupServiceHandler.GetFirewallGroup (f : firewallGroupServiceHandler) (ctx : Context)
    (fwGroupId : String) : Traced (Option FirewallGroupDetailData × Option Err) := do
  let path := firewallGroupBasePath ++ "/group/" ++ fwGroupId
  let (req, err) ← f.client.NewRequest ctx MethodGet path Body.nil
  match err with
  | some e => return (none, some e)
  | none =>
    let fwGroup : GetFirewallGroupRoot := default
    let (fwGroup, err) ← f.client.Do ctx req Target.getFirewallGroupRoot fwGroup
    match err with
    | some e => return (none, some e)
    | none => return (some fwGroup.Data, none)

def firewallGroupServiceHandler.DeleteFirewallGroupOfServer (f : firewallGroupServiceHandler)
    (ctx : Context) (groupId vmId : String) : Traced (Option Err) := do
  let path := firewallGroupBasePath ++ "/firewall/removeGroupVm"
  let delReq := Body.structPtr [
    ("groupId", FieldVal.str groupId),
    ("vmId", FieldVal.str vmId)]
  let (req, err) ← f.client.NewRequest ctx MethodDelete path delReq
  match err with
  | some e => return some e
  | none =>
    let (_, err) ← f.client.Do ctx req Target.nil ()
    return err

/-! ## project.go: handlers -/

structure projectsServiceHandler where
  client : Client

def projectsServiceHandler.List (p : projectsServiceHandler) (ctx : Context)
    (options : Option ListOptions) : Traced (Slice Project × Option Err) := do
  let (req, err) ← p.client.NewRequest ctx MethodGet projectsBasePath Body.nil
  match err with
  | some e => return (none, some e)
  | none =>
    let projects : ProjectsRoot := default
    let (projects, err) ← p.client.Do ctx req Target.projectsRoot projects
    match err with
    | some e => return (none, some e)
    | none => return (projects.Data.Rows, none)

def projectsServiceHandler.SetDefault (p : projectsServiceHandler) (ctx : Context)
    (projectIdentifier : String) : Traced (Option Err) := do
  let path := projectsBasePath ++ "/set/default"
  let projectReq := Body.structPtr [
    ("projectIdentifier", FieldVal.str projectIdentifier)]
  let (req, err) ← p.client.NewRequest ctx MethodPost path projectReq
  match err with
  | some e => return some e
  | none =>
    let (_, err) ← p.client.Do ctx req Target.nil ()
    return err

def projectsServiceHandler.Get (p : projectsServiceHandler) (ctx : Context)
    (identifer : String) : Traced (Option Project × Option Err) := do
  let path := projectsBasePath ++ "/" ++ identifer
  let (req, err) ← p.client.NewRequest ctx MethodGet path Body.nil
  match err with
  | some e => return (none, some e)
  | none =>
    let project : ProjectRoot := default
    let (project, err) ← p.client.Do ctx req Target.projectRoot project
    match err with
    | some e => return (none, some e)
    | none => return (project.Project, none)

def projectsServiceHandler.Create (p : projectsServiceHandler) (ctx : Context)
    (projectReq : Option CreateProjectRequest) : Traced (Option Err) := do
  let path := projectsBasePath ++ "/add"
  let (req, err) ← p.client.NewRequest ctx MethodPost path (Body.createProjectRequest projectReq)
  match err with
  | some e => return some e
  | none =>
    let (_, err) ← p.client.Do ctx req Target.nil ()
    return err

def projectsServiceHandler.ListAnotherVms (p : projectsServiceHandler) (ctx : Context)
    (projectId : String) : Traced (Slice VmData × Option Err) := do
  let path := projectsBasePath ++ "/another/vms?projectId=" ++ projectId
  let vms : ListServerRoot := default
  let (req, err) ← p.client.NewRequest ctx MethodGet path Body.nil
  match err with
  | some e => return (none, some e)
  | none =>
    let (vms, err) ← p.client.Do ctx req Target.listServerRoot vms
    match err with
    | some e => return (none, some e)
    | none => return (vms.Data, none)

def projectsServiceHandler.MoveVms (p : projectsServiceHandler) (ctx : Context)
    (projectIdentifier projectId : String) : Traced (Option Err) := do
  let path := projectsBasePath ++ "/move/vms"
  let moveReq := Body.structPtr [
    ("vmsIdentifiers", FieldVal.strs (some [projectIdentifier])),
    ("projectId", FieldVal.str projectId)]
  let (req, err) ← p.client.NewRequest ctx MethodPost path moveReq
  match err with
  | some e => return some e
  | none =>
    let (_, err) ← p.client.Do ctx req Target.nil ()
    return err

def projectsServiceHandler.AssignToVms (p : projectsServiceHandler) (ctx : Context)
    (projectIdentifier projectId : String) : Traced (Option Err) := do
  let path := projectsBasePath ++ "/vm"
  let assignReq := Body.structPtr [
    ("vmIdentifier", FieldVal.str projectIdentifier),
    ("projectId", FieldVal.str projectId)]
  let (req, err) ← p.client.NewRequest ctx MethodPost path assignReq
  match err with
  | some e => return some e
  | none =>
    let (_, err) ← p.client.Do ctx req Target.nil ()
    return err

def projectsServiceHandler.ListDomains (p : projectsServiceHandler) (ctx : Context)
    (projectIdentifier : String) : Traced (Slice Domain × Option Err) := do
  let path := "/apps/v2/domains/project/" ++ projectIdentifier
  let domains : ListDomainRoot := default
  let (req, err) ← p.client.NewRequest ctx MethodGet path Body.nil
  match err with
  | some e => return (none, some e)
  | none =>
    let (domains, err) ← p.client.Do ctx req Target.listDomainRoot domains
    match err with
    | some e => return (none, some e)
    | none => return (domains.Data, none)

def projectsServiceHandler.Delete (p : projectsServiceHandler) (ctx : Context)
    (id : String) : Traced (Option Err) := do
  let path := projectsBasePath ++ "/" ++ id
  let (req, err) ← p.client.NewRequest ctx MethodDelete path Body.nil
  match err with
  | some e => return some e
  | none =>
    let (_, err) ← p.client.Do ctx req Target.nil ()
    return err

def projectsServiceHandler.ListUserLimits (p : projectsServiceHandler) (ctx : Context) :
    Traced (Option UserLimit × Option Err) := do
  let path := "/apps/v2/profile/product/limits"
  let (req, err) ← p.client.NewRequest ctx MethodGet path Body.nil
  match err with
  | some e => return (none, some e)
  | none =>
    let limits : ListUserLimitRoot := default
    let (limits, err) ← p.client.Do ctx req Target.listUserLimitRoot limits
    match err with
    | some e => return (none, some e)
    | none => return (some limits.Data, none)

/-! ## All operations of the three services -/

/-- What an operation returns next to its `error`. -/
inductive Ret
  | errOnly
  | backups (v : Slice Backup)
  | backup (v : Option Backup)
  | backupPolicies (v : Slice BackupPolicyListDetail)
  | backupPolicy (v : Option BackupPolicy)
  | firewallGroups (v : Slice FirewallGroupListData)
  | firewallGroup (v : Option FirewallGroupDetailData)
  | projects (v : Slice Project)
  | project (v : Option Project)
  | vms (v : Slice VmData)
  | domains (v : Slice Domain)
  | userLimit (v : Option UserLimit)
  deriving DecidableEq, Repr

/-- The returned slice or pointer is nil (an operation that returns only an
error returns no value at all). -/
def Ret.isNil : Ret → Bool
  | Ret.errOnly => true
  | Ret.backups v => v.isNone
  | Ret.backup v => v.isNone
  | Ret.backupPolicies v => v.isNone
  | Ret.backupPolicy v => v.isNone
  | Ret.firewallGroups v => v.isNone
  | Ret.firewallGroup v => v.isNone
  | Ret.projects v => v.isNone
  | Ret.project v => v.isNone
  | Ret.vms v => v.isNone
  | Ret.domains v => v.isNone
  | Ret.userLimit v => v.isNone

/-- An operation of `BackupsService`, `FirewallGroupService` or
`ProjectsService` together with its arguments. -/
inductive Op
  | backupsList (options : Option ListOptions)
  | backupsDeleteBackup (backupIdentifier deleteReason deleteNote : String)
  | backupsCreateBackups (vmIdentifier name notes : String)
  | backupsListByServer (options : Option ListOptions) (vmIdentifier : String)
  | backupsCreateServerByBackup (backupIdentifier : String)
  | backupsGet (identifer : String)
  | backupsEnableAutoBackup (enableAutoReq : Option EnableAutoBackupReq)
  | backupsRename (backupIdentifier newName : String)
  | backupsGetBackupPolicy (identifier : String)
  | backupsCreateBackupPolicy (createReq : Option CreateBackupPolicyReq)
  | backupsDeleteBackupPolicy (policyId identifier : String)
  | backupsManageRetainBackupPolicy (policyId : String) (keep : Int)
  | backupsAttachBackupPolicy (policyId : String) (vms : Slice String)
  | backupsDetachBackupPolicy (policyId : String) (vms : Slice String)
  | backupsListBackupPolicies (options : Option ListOptions)
  | firewallCreate (groupName : String) (firewallUpdateReq : Slice FirewallUpdateReq)
  | firewallList (options : Option ListOptions)
  | firewallGet (fwGroupId : String)
  | firewallDelete (fwGroupId : String)
  | firewallUpdate (fwGroupReq : Option FirewallUpdateReq) (fwGroupId : String)
  | firewallAssignToVpsie (groupId vmId : String)
  | firewallDetachFromVpsie (groupId vmId : String)
  | firewallAttachToVpsie (groupId vmId : String)
  | firewallDeleteFirewallGroupOfServer (groupId vmId : String)
  | firewallGetFirewallGroup (fwGroupId : String)
  | projectsList (options : Option ListOptions)
  | projectsSetDefault (projectIdentifier : String)
  | projectsGet (identifer : String)
  | projectsCreate (projectReq : Option CreateProjectRequest)
  | projectsListAnotherVms (projectId : String)
  | projectsMoveVms (projectIdentifier projectId : String)
  | projectsAssignToVms (projectIdentifier projectId : String)
  | projectsListDomains (projectIdentifier : String)
  | projectsDelete (id : String)
  | projectsListUserLimits
  deriving DecidableEq, Repr

/-- Wrap the result of an operation that returns `(value, error)`. -/
def withValue {α : Type} (mk : α → Ret) (t : Traced (α × Option Err)) :
    Traced (Outcome (Ret × Option Err)) :=
  ⟨Outcome.returned (mk t.val.1, t.val.2), t.calls⟩

/-- Wrap the result of an operation that returns only an `error`. -/
def errorOnly (t : Traced (Option Err)) : Traced (Outcome (Ret × Option Err)) :=
  ⟨Outcome.returned (Ret.errOnly, t.val), t.calls⟩

/-- Wrap the result of the firewall `List`, which may panic. -/
def withOutcome {α : Type} (mk : α → Ret) (t : Traced (Outcome (α × Option Err))) :
    Traced (Outcome (Ret × Option Err)) :=
  ⟨match t.val with
    | Outcome.returned r => Outcome.returned (mk r.1, r.2)
    | Outcome.panicked => Outcome.panicked,
   t.calls⟩

/-- Run an operation on a client: the handler of the operation, called on a
service handler that holds the client. -/
def run (c : Client) (ctx : Context) : Op → Traced (Outcome (Ret × Option Err))
  | Op.backupsList options =>
    withValue Ret.backups ((backupsServiceHandler.mk c).List ctx options)
  | Op.backupsDeleteBackup backupIdentifier deleteReason deleteNote =>
    errorOnly ((backupsServiceHandler.mk c).DeleteBackup ctx backupIdentifier deleteReason deleteNote)
  | Op.backupsCreateBackups vmIdentifier name notes =>
    errorOnly ((backupsServiceHandler.mk c).CreateBackups ctx vmIdentifier name notes)
  | Op.backupsListByServer options vmIdentifier =>
    withValue Ret.backups ((backupsServiceHandler.mk c).ListByServer ctx options vmIdentifier)
  | Op.backupsCreateServerByBackup backupIdentifier =>
    errorOnly ((backupsServiceHandler.mk c).CreateServerByBackup ctx backupIdentifier)
  | Op.backupsGet identifer =>
    withValue Ret.backup ((backupsServiceHandler.mk c).Get ctx identifer)
  | Op.backupsEnableAutoBackup enableAutoReq =>
    errorOnly ((backupsServiceHandler.mk c).EnableAutoBackup ctx enableAutoReq)
  | Op.backupsRename backupIdentifier newName =>
    errorOnly ((backupsServiceHandler.mk c).Rename ctx backupIdentifier newName)
  | Op.backupsGetBackupPolicy identifier =>
    withValue Ret.backupPolicy ((backupsServiceHandler.mk c).GetBackupPolicy ctx identifier)
  | Op.backupsCreateBackupPolicy createReq =>
    errorOnly ((backupsServiceHandler.mk c).CreateBackupPolicy ctx createReq)
  | Op.backupsDeleteBackupPolicy policyId identifier =>
    errorOnly ((backupsServiceHandler.mk c).DeleteBackupPolicy ctx policyId identifier)
  | Op.backupsManageRetainBackupPolicy policyId keep =>
    errorOnly ((backupsServiceHandler.mk c).ManageRetainBackupPolicy ctx policyId keep)
  | Op.backupsAttachBackupPolicy policyId vms =>
    errorOnly ((backupsServiceHandler.mk c).AttachBackupPolicy ctx policyId vms)
  | Op.backupsDetachBackupPolicy policyId vms =>
    errorOnly ((backupsServiceHandler.mk c).DetachBackupPolicy ctx policyId vms)
  | Op.backupsListBackupPolicies options =>
    withValue Ret.backupPolicies ((backupsServiceHandler.mk c).ListBackupPolicies ctx options)
  | Op.firewallCreate groupName firewallUpdateReq =>
    errorOnly ((firewallGroupServiceHandler.mk c).Create ctx groupName firewallUpdateReq)
  | Op.firewallList options =>
    withOutcome Ret.firewallGroups ((firewallGroupServiceHandler.mk c).List ctx options)
  | Op.firewallGet fwGroupId =>
    withValue Ret.firewallGroup ((firewallGroupServiceHandler.mk c).Get ctx fwGroupId)
  | Op.firewallDelete fwGroupId =>
    errorOnly ((firewallGroupServiceHandler.mk c).Delete ctx fwGroupId)
  | Op.firewallUpdate fwGroupReq fwGroupId =>
    errorOnly ((firewallGroupServiceHandler.mk c).Update ctx fwGroupReq fwGroupId)
  | Op.firewallAssignToVpsie groupId vmId =>
    errorOnly ((firewallGroupServiceHandler.mk c).AssignToVpsie ctx groupId vmId)
  | Op.firewallDetachFromVpsie groupId vmId =>
    errorOnly ((firewallGroupServiceHandler.mk c).DetachFromVpsie ctx groupId vmId)
  | Op.firewallAttachToVpsie groupId vmId =>
    errorOnly ((firewallGroupServiceHandler.mk c).AttachToVpsie ctx groupId vmId)
  | Op.firewallDeleteFirewallGroupOfServer groupId vmId =>
    errorOnly ((firewallGroupServiceHandler.mk c).DeleteFirewallGroupOfServer ctx groupId vmId)
  | Op.firewallGetFirewallGroup fwGroupId =>
    withValue Ret.firewallGroup ((firewallGroupServiceHandler.mk c).GetFirewallGroup ctx fwGroupId)
  | Op.projectsList options =>
    withValue Ret.projects ((projectsServiceHandler.mk c).List ctx options)
  | Op.projectsSetDefault projectIdentifier =>
    errorOnly ((projectsServiceHandler.mk c).SetDefault ctx projectIdentifier)
  | Op.projectsGet identifer =>
    withValue Ret.project ((projectsServiceHandler.mk c).Get ctx identifer)
  | Op.projectsCreate projectReq =>
    errorOnly ((projectsServiceHandler.mk c).Create ctx projectReq)
  | Op.projectsListAnotherVms projectId =>
    withValue Ret.vms ((projectsServiceHandler.mk c).ListAnotherVms ctx projectId)
  | Op.projectsMoveVms projectIdentifier projectId =>
    errorOnly ((projectsServiceHandler.mk c).MoveVms ctx projectIdentifier projectId)
  | Op.projectsAssignToVms projectIdentifier projectId =>
    errorOnly ((projectsServiceHandler.mk c).AssignToVms ctx projectIdentifier projectId)
  | Op.projectsListDomains projectIdentifier =>
    withValue Ret.domains ((projectsServiceHandler.mk c).ListDomains ctx projectIdentifier)
  | Op.projectsDelete id =>
    errorOnly ((projectsServiceHandler.mk c).Delete ctx id)
  | Op.projectsListUserLimits =>
    withValue Ret.userLimit ((projectsServiceHandler.mk c).ListUserLimits ctx)

/-- The operation returns a value next to its error (its Go result type is
`(T, error)`, not `error` alone). -/
def Op.returnsValue : Op → Bool
  | Op.backupsList _ => true
  | Op.backupsListByServer _ _ => true
  | Op.backupsGet _ => true
  | Op.backupsGetBackupPolicy _ => true
  | Op.backupsListBackupPolicies _ => true
  | Op.firewallList _ => true
  | Op.firewallGet _ => true
  | Op.firewallGetFirewallGroup _ => true
  | Op.projectsList _ => true
  | Op.projectsGet _ => true
  | Op.projectsListAnotherVms _ => true
  | Op.projectsListDomains _ => true
  | Op.projectsListUserLimits => true
  | _ => false

/-- The call is a `NewRequest` call. -/
def Call.isNewRequest : Call → Bool
  | Call.NewRequest _ _ _ _ => true
  | Call.Do _ _ _ _ => false

/-- The call is a `Do` call. -/
def Call.isDo : Call → Bool
  | Call.NewRequest _ _ _ _ => false
  | Call.Do _ _ _ _ => true

/-- The `error` field of the envelope `Do` left in its target (`false` when
there is no envelope to read: a nil target or a nil pointer). -/
def Target.envelopeError : (t : Target) → t.type → Bool
  | Target.nil, _ => false
  | Target.listBackupsRoot, r => r.Error
  | Target.getBackupsRoot, r => r.Error
  | Target.listBackupPoliciesRoot, r => r.Error
  | Target.getBackupPolicyRoot, r => r.Error
  | Target.listFirewallGroupsRootPtr, some r => r.Error
  | Target.listFirewallGroupsRootPtr, none => false
  | Target.getFirewallGroupRoot, r => r.Error
  | Target.projectsRoot, r => r.Error
  | Target.projectRoot, r => r.Error
  | Target.listServerRoot, r => r.Error
  | Target.listDomainRoot, r => r.Error
  | Target.listUserLimitRoot, r => r.Error

/-- The content `Do` left in its target with the `error` field of the envelope
set to false: all that `Do` left there apart from that field. -/
def Target.eraseError : (t : Target) → t.type → t.type
  | Target.nil, v => v
  | Target.listBackupsRoot, r => ({ r with Error := false } : ListBackupsRoot)
  | Target.getBackupsRoot, r => ({ r with Error := false } : GetBackupsRoot)
  | Target.listBackupPoliciesRoot, r => ({ r with Error := false } : ListBackupPoliciesRoot)
  | Target.getBackupPolicyRoot, r => ({ r with Error := false } : GetBackupPolicyRoot)
  | Target.listFirewallGroupsRootPtr, some r =>
    some ({ r with Error := false } : ListFirewallGroupsRoot)
  | Target.listFirewallGroupsRootPtr, none => none
  | Target.getFirewallGroupRoot, r => ({ r with Error := false } : GetFirewallGroupRoot)
  | Target.projectsRoot, r => ({ r with Error := false } : ProjectsRoot)
  | Target.projectRoot, r => ({ r with Error := false } : ProjectRoot)
  | Target.listServerRoot, r => ({ r with Error := false } : ListServerRoot)
  | Target.listDomainRoot, r => ({ r with Error := false } : ListDomainRoot)
  | Target.listUserLimitRoot, r => ({ r with Error := false } : ListUserLimitRoot)

/-- The four verbs handed to `NewRequest`. -/
def verbs : List String := [MethodGet, MethodPost, MethodPut, MethodDelete]

/-- The shape every handler run has: one `NewRequest` call, then at most one
`Do` call on the request that `NewRequest` returned; an error of either call is
returned as it is, next to a nil value. `rv` tells whether the operation
returns a value next to its error. -/
inductive RunShape (c : Client) (ctx : Context) (rv : Bool) :
    Traced (Outcome (Ret × Option Err)) → Prop
  | newRequestFailed (m p : String) (b : Body) (e : Err) (r : Ret)
      (hm : m ∈ verbs) (hp : "/apps/v2".data <+: p.data)
      (h1 : (c.newRequestFn ctx m p b).2 = some e)
      (hr : r.isNil = true) (hv : rv = false → r = Ret.errOnly) :
      RunShape c ctx rv ⟨Outcome.returned (r, some e), [Call.NewRequest ctx m p b]⟩
  | doFailed (m p : String) (b : Body) (t : Target) (v : t.type) (e : Err) (r : Ret)
      (hm : m ∈ verbs) (hp : "/apps/v2".data <+: p.data)
      (h1 : (c.newRequestFn ctx m p b).2 = none)
      (h2 : (c.doFn ctx (c.newRequestFn ctx m p b).1 t v).2 = some e)
      (hr : r.isNil = true) (hv : rv = false → r = Ret.errOnly ∧ t = Target.nil) :
      RunShape c ctx rv ⟨Outcome.returned (r, some e),
        [Call.NewRequest ctx m p b, Call.Do ctx (c.newRequestFn ctx m p b).1 t v]⟩
  | doSucceeded (m p : String) (b : Body) (t : Target) (v : t.type) (r : Ret)
      (hm : m ∈ verbs) (hp : "/apps/v2".data <+: p.data)
      (h1 : (c.newRequestFn ctx m p b).2 = none)
      (h2 : (c.doFn ctx (c.newRequestFn ctx m p b).1 t v).2 = none)
      (hv : rv = false → r = Ret.errOnly ∧ t = Target.nil) :
      RunShape c ctx rv ⟨Outcome.returned (r, none),
        [Call.NewRequest ctx m p b, Call.Do ctx (c.newRequestFn ctx m p b).1 t v]⟩
  | doSucceededPanicked (m p : String) (b : Body) (t : Target) (v : t.type)
      (hm : m ∈ verbs) (hp : "/apps/v2".data <+: p.data)
      (h1 : (c.newRequestFn ctx m p b).2 = none)
      (h2 : (c.doFn ctx (c.newRequestFn ctx m p b).1 t v).2 = none)
      (hv : rv = true) :
      RunShape c ctx rv ⟨Outcome.panicked,
        [Call.NewRequest ctx m p b, Call.Do ctx (c.newRequestFn ctx m p b).1 t v]⟩

/-- The list operations that take a `*ListOptions` argument, with their other
arguments. -/
inductive ListOp
  | backupsList
  | backupsListByServer (vmIdentifier : String)
  | backupsListBackupPolicies
  | firewallList
  | projectsList
  deriving DecidableEq, Repr

/-- The list operation called with the given options. -/
def ListOp.withOptions : ListOp → Option ListOptions → Op
  | ListOp.backupsList, options => Op.backupsList options
  | ListOp.backupsListByServer vmIdentifier, options => Op.backupsListByServer options vmIdentifier
  | ListOp.backupsListBackupPolicies, options => Op.backupsListBackupPolicies options
  | ListOp.firewallList, options => Op.firewallList options
  | ListOp.projectsList, options => Op.projectsList options

/-! ## Concrete clients, used to evaluate the handlers -/

/-- A client whose `NewRequest` succeeds and whose `Do` succeeds leaving the
target as it found it: what decoding a body without a `data` field (or with
`"data": null`) does to a freshly allocated root. -/
def okClient : Client where
  newRequestFn := fun _ m p _ => (some ⟨m, p, ""⟩, none)
  doFn := fun _ _ _ v => (v, none)

/-- A client whose `NewRequest` fails. -/
def noRequestClient : Client where
  newRequestFn := fun _ _ _ _ => (none, some ⟨"cannot build request"⟩)
  doFn := fun _ _ _ v => (v, none)

/-- A client whose `Do` fails, leaving the target as it found it. -/
def doFailsClient : Client where
  newRequestFn := fun _ m p _ => (some ⟨m, p, ""⟩, none)
  doFn := fun _ _ _ v => (v, some ⟨"request failed"⟩)

/-- A client whose `Do` decodes `{"error": true, "data": [b]}` into a
`ListBackupsRoot` target and reports success. -/
def flaggedClient : Client where
  newRequestFn := fun _ m p _ => (some ⟨m, p, ""⟩, none)
  doFn := fun _ _ t v =>
    match t, v with
    | Target.listBackupsRoot, _ => (⟨true, some [default], 0⟩, none)
    | _, v => (v, none)

/-- A client whose `Do` decodes `{"error": true}` into a `ListBackupsRoot`
target and reports the failure as an error. -/
def rejectingClient : Client where
  newRequestFn := fun _ m p _ => (some ⟨m, p, ""⟩, none)
  doFn := fun _ _ t v =>
    match t, v with
    | Target.listBackupsRoot, _ => (⟨true, none, 0⟩, some ⟨"api error"⟩)
    | _, v => (v, some ⟨"api error"⟩)

/-- A client whose `Do` decodes `{"error": false, "data": [], "total": 0}` into
the list targets and reports success. -/
def emptyListClient : Client where
  newRequestFn := fun _ m p _ => (some ⟨m, p, ""⟩, none)
  doFn := fun _ _ t v =>
    match t, v with
    | Target.listBackupsRoot, _ => (⟨false, some [], 0⟩, none)
    | Target.listFirewallGroupsRootPtr, _ => (some ⟨false, some [], 0⟩, none)
    | Target.listBackupPoliciesRoot, _ => (⟨false, ⟨some []⟩⟩, none)
    | Target.projectsRoot, _ => (⟨false, ⟨some [], 0⟩⟩, none)
    | _, v => (v, none)

/-- A client whose `Do` decodes `{"error": false, "data": [b]}` into a
`ListBackupsRoot` target and reports success: `flaggedClient` with the `error`
field of the body false. -/
def unflaggedClient : Client where
  newRequestFn := fun _ m p _ => (some ⟨m, p, ""⟩, none)
  doFn := fun _ _ t v =>
    match t, v with
    | Target.listBackupsRoot, _ => (⟨false, some [default], 0⟩, none)
    | _, v => (v, none)

/-- A client whose `Do` decodes the body `null` and reports success: decoding
`null` through a pointer to a struct leaves the struct alone, and through a
pointer to a pointer (`&fwGroups`) sets the pointer to nil. -/
def nullBodyClient : Client where
  newRequestFn := fun _ m p _ => (some ⟨m, p, ""⟩, none)
  doFn := fun _ _ t v =>
    match t, v with
    | Target.listFirewallGroupsRootPtr, _ => (none, none)
    | _, v => (v, none)

/-! ## JSON names of the list envelopes

`Do` decodes the response body into the envelope with Go's `encoding/json`.
That package is not part of the three files; what follows models the part of it
that binds an object key to a struct field, applied to the `json` tags the two
list envelopes with a total are declared with. -/

/-- A JSON value. -/
inductive Json
  | null
  | bool (b : Bool)
  | num (n : Int)
  | str (s : String)
  | arr (elems : List Json)
  | obj (members : List (String × Json))

/-- The name part of a `json` struct tag: the text before the first comma. -/
def tagName (tag : String) : String :=
  ⟨tag.data.takeWhile (fun ch => ch != ',')⟩

/-- Punctuation that `encoding/json` accepts in a tag name, the blank
included. -/
def tagPunctuation : List Char := "!#$%&()*+-./:;<=>?@[]^_{|}~ ".data

/-- The check `isValidTag` of `encoding/json`: a non-empty name made of letters,
digits and the accepted punctuation (letters and digits taken as ASCII). -/
def isValidTag (name : String) : Bool :=
  name != "" && name.data.all (fun ch => tagPunctuation.contains ch || ch.isAlpha || ch.isDigit)

/-- The JSON name of a struct field: the name part of its tag when that is
valid, its Go name otherwise. -/
def jsonFieldName (goName tag : String) : String :=
  if isValidTag (tagName tag) then tagName tag else goName

/-- Case folding of a key, as far as ASCII goes. -/
def foldName (key : String) : List Char := key.data.map Char.toUpper

/-- The index of the struct field an object key is bound to: the field whose
JSON name is the key, and failing that the first one whose JSON name equals the
key up to case. -/
def fieldIndex (names : List String) (key : String) : Option Nat :=
  match names.indexOf? key with
  | some i => some i
  | none => (names.map foldName).indexOf? (foldName key)

/-- Decode a JSON value into a slice, the elements by `elem`: an array gives a
non-nil slice, `null` the nil slice, anything else leaves the slice alone. -/
def decodeSlice {α : Type} (elem : Json → α) (old : Slice α) : Json → Slice α
  | Json.arr elems => some (elems.map elem)
  | Json.null => none
  | _ => old

/-- JSON names of the fields of `ListBackupsRoot`, from its struct tags
`json:"error"`, `json:"data"` and `json:"total "`. -/
def ListBackupsRoot.fieldNames : List String :=
  [jsonFieldName "Error" "error", jsonFieldName "Data" "data", jsonFieldName "Total" "total "]

/-- JSON names of the fields of `ListFirewallGroupsRoot`, from its struct tags
`json:"error"`, `json:"data"` and `json:"total"`. -/
def ListFirewallGroupsRoot.fieldNames : List String :=
  [jsonFieldName "Error" "error", jsonFieldName "Data" "data", jsonFieldName "Total" "total"]

/-- Decode a response body into a `ListBackupsRoot`: each member of the object
is stored in the field its key is bound to; a member bound to no field, or
whose value does not fit the field, leaves the struct alone. -/
def ListBackupsRoot.unmarshal (elem : Json → Backup) (body : Json) (v : ListBackupsRoot) :
    ListBackupsRoot :=
  match body with
  | Json.obj members =>
    members.foldl (fun r kv =>
      match fieldIndex ListBackupsRoot.fieldNames kv.1, kv.2 with
      | some 0, Json.bool b => { r with Error := b }
      | some 1, j => { r with Data := decodeSlice elem r.Data j }
      | some 2, Json.num n => { r with Total := n }
      | _, _ => r) v
  | _ => v

/-- Decode a response body into a `ListFirewallGroupsRoot`, in the same way. -/
def ListFirewallGroupsRoot.unmarshal (elem : Json → FirewallGroupListData) (body : Json)
    (v : ListFirewallGroupsRoot) : ListFirewallGroupsRoot :=
  match body with
  | Json.obj members =>
    members.foldl (fun r kv =>
      match fieldIndex ListFirewallGroupsRoot.fieldNames kv.1, kv.2 with
      | some 0, Json.bool b => { r with Error := b }
      | some 1, j => { r with Data := decodeSlice elem r.Data j }
      | some 2, Json.num n => { r with Total := n }
      | _, _ => r) v
  | _ => v

/-- The body `{"error": false, "data": [], "total": 5}`. -/
def totalFiveBody : Json :=
  Json.obj [("error", Json.bool false), ("data", Json.arr []), ("total", Json.num 5)]

/-! ## The transport executor and the pagination helper

Both belong to the client, which is declared outside the three files; they are
modelled from sections 3, 4.2 and 4.4 of the design. Backoff delays and jitter
are timing and are left out: an execution is the sequence of its sends. -/

/-- Modelled from the spec: the kinds of an `APIError` (section 7), a type of
the client. -/
inductive ErrorKind
  | transport
  | httpStatus
  | envelope
  | decode
  deriving DecidableEq, Repr

/-- Modelled from the spec: `RawResponse` (section 3), a type of the client:
the status code and the body of a received HTTP response. -/
structure RawResponse where
  status : Nat
  body : String
  deriving DecidableEq, Repr

/-- Modelled from the spec: `APIError` (section 3), a type of the client: kind,
HTTP status if applicable, message and raw body. -/
structure APIError where
  kind : ErrorKind
  status : Option Nat
  message : String
  body : String
  deriving DecidableEq, Repr

/-- Modelled from the spec: what one send of the transport executor comes to
(section 4.2): an HTTP response, a network-level failure (connection refused or
reset, timeout), or the cancellation of the caller's context. -/
inductive SendOutcome
  | response (r : RawResponse)
  | networkFailure (message : String)
  | cancelled
  deriving DecidableEq, Repr

/-- Modelled from the spec: the status codes the transport executor takes for
a server error (HTTP 5xx). -/
def isServerError (status : Nat) : Bool :=
  decide (500 ≤ status) && decide (status < 600)

/-- The result of `Execute` together with the number of sends it made. -/
structure Execution where
  result : Except APIError RawResponse
  attempts : Nat

/-- Modelled from the spec: the retry loop of `Execute` (section 4.2). `send k`
is what the send number `k` comes to, `remaining` the attempts left, `made` the
sends made so far, `last` the error of the last failure. A network failure and
an HTTP 5xx response are retried; any other response is passed on whatever its
status; cancellation ends the call at once; when no attempt is left the last
failure is returned as a transport error. -/
def executeLoop (send : Nat → SendOutcome) : (remaining made : Nat) → APIError → Execution
  | 0, made, last => ⟨Except.error last, made⟩
  | remaining + 1, made, _ =>
    match send made with
    | SendOutcome.response r =>
      if isServerError r.status then
        executeLoop send remaining (made + 1)
          ⟨ErrorKind.transport, some r.status, "server error", r.body⟩
      else ⟨Except.ok r, made + 1⟩
    | SendOutcome.networkFailure message =>
      executeLoop send remaining (made + 1) ⟨ErrorKind.transport, none, message, ""⟩
    | SendOutcome.cancelled =>
      ⟨Except.error ⟨ErrorKind.transport, none, "cancelled", ""⟩, made + 1⟩

/-- Modelled from the spec: `Execute` of the transport executor (section 4.2),
with the configured number of attempts as its bound. -/
def Execute (maxAttempts : Nat) (send : Nat → SendOutcome) : Execution :=
  executeLoop send maxAttempts 0 ⟨ErrorKind.transport, none, "no attempt made", ""⟩

/-- A server that answers every send with HTTP 503. -/
def alwaysUnavailable : Nat → SendOutcome :=
  fun _ => SendOutcome.response ⟨503, ""⟩

/-- A server that answers HTTP 503 twice and HTTP 200 from then on. -/
def availableAtThird : Nat → SendOutcome :=
  fun k => if k < 2 then SendOutcome.response ⟨503, ""⟩ else SendOutcome.response ⟨200, "ok"⟩

/-- Modelled from the spec: `HasMore(options, returned, total)` of the
pagination helper (section 4.4): further pages exist when the items up to and
including this page, `returned` of them on this page, are fewer than `total`. -/
def HasMore (options : ListOptions) (returned total : Int) : Bool :=
  decide ((options.Page - 1) * options.PerPage + returned < total)

/-- Modelled from the spec: `Next(options)` of the pagination helper (section
4.4): the same filters and page size, the page number incremented. -/
def Next (options : ListOptions) : ListOptions :=
  { options with Page := options.Page + 1 }

/-- The number of items a server holding `total` items returns for a page: a
full page, or what is left of the items, or nothing. -/
def itemsOnPage (total : Int) (options : ListOptions) : Int :=
  max 0 (min options.PerPage (total - (options.Page - 1) * options.PerPage))

/-- The caller's loop over the pages (section 4.4): fetch the page, and go on
with `Next` while `HasMore` holds. Gives the page numbers fetched, in order,
and whether the loop ended because `HasMore` reported no more pages. -/
def visitPages : (fuel : Nat) → (total : Int) → ListOptions → List Int × Bool
  | 0, _, _ => ([], false)
  | fuel + 1, total, options =>
    if HasMore options (itemsOnPage total options) total then
      (options.Page :: (visitPages fuel total (Next options)).1,
        (visitPages fuel total (Next options)).2)
    else ([options.Page], true)

/-! ## Proofs -/

theorem apiRoot_append (s t : String) (h : "/apps/v2".data <+: s.data) :
    "/apps/v2".data <+: (s ++ t).data := by
  rw [String.data_append]
  exact h.trans (List.prefix_append _ _)

theorem apiRoot_backupsPath : "/apps/v2".data <+: backupsPath.data :=
  ⟨[], rfl⟩

theorem apiRoot_firewallGroupBasePath : "/apps/v2".data <+: firewallGroupBasePath.data :=
  ⟨"/firewall".data, rfl⟩

theorem apiRoot_projectsBasePath : "/apps/v2".data <+: projectsBasePath.data :=
  ⟨"/projects".data, rfl⟩

theorem apiRoot_domains : "/apps/v2".data <+: "/apps/v2/domains/project/".data :=
  ⟨"/domains/project/".data, rfl⟩

theorem apiRoot_limits : "/apps/v2".data <+: "/apps/v2/profile/product/limits".data :=
  ⟨"/profile/product/limits".data, rfl⟩

theorem RunShape.ofDo (c : Client) (ctx : Context) (m p : String) (b : Body)
    (hm : m ∈ verbs) (hp : "/apps/v2".data <+: p.data)
    (h1 : (c.newRequestFn ctx m p b).2 = none) :
    RunShape c ctx false
      ⟨Outcome.returned (Ret.errOnly, (c.doFn ctx (c.newRequestFn ctx m p b).1 Target.nil ()).2),
        [Call.NewRequest ctx m p b, Call.Do ctx (c.newRequestFn ctx m p b).1 Target.nil ()]⟩ := by
  cases h : (c.doFn ctx (c.newRequestFn ctx m p b).1 Target.nil ()).2 with
  | none => exact RunShape.doSucceeded m p b Target.nil () Ret.errOnly hm hp h1 h (fun _ => ⟨rfl, rfl⟩)
  | some e =>
    exact RunShape.doFailed m p b Target.nil () e Ret.errOnly hm hp h1 h rfl (fun _ => ⟨rfl, rfl⟩)

theorem run_shape_firewallList (c : Client) (ctx : Context) (options : Option ListOptions) :
    RunShape c ctx true (run c ctx (Op.firewallList options)) := by
  have hm : MethodGet ∈ verbs := by simp [verbs]
  have hp : "/apps/v2".data <+: (firewallGroupBasePath ++ "/groups").data :=
    apiRoot_append _ _ apiRoot_firewallGroupBasePath
  simp only [run, withOutcome, firewallGroupServiceHandler.List, Client.NewRequest, Client.Do,
    bind, pure]
  cases h1 : (c.newRequestFn ctx MethodGet (firewallGroupBasePath ++ "/groups") Body.nil).2 with
  | some e => exact RunShape.newRequestFailed _ _ _ e _ hm hp h1 rfl (by simp)
  | none =>
    cases h2 : (c.doFn ctx (c.newRequestFn ctx MethodGet (firewallGroupBasePath ++ "/groups")
        Body.nil).1 Target.listFirewallGroupsRootPtr (some default)).2 with
    | some e => exact RunShape.doFailed _ _ _ _ _ e _ hm hp h1 h2 rfl (by simp)
    | none =>
      cases h3 : (c.doFn ctx (c.newRequestFn ctx MethodGet (firewallGroupBasePath ++ "/groups")
          Body.nil).1 Target.listFirewallGroupsRootPtr (some default)).1 with
      | some root => exact RunShape.doSucceeded _ _ _ _ _ _ hm hp h1 h2 (by simp)
      | none => exact RunShape.doSucceededPanicked _ _ _ _ _ hm hp h1 h2 rfl

theorem run_shape (c : Client) (ctx : Context) (op : Op) :
    RunShape c ctx op.returnsValue (run c ctx op) := by
  cases op
  case firewallList options => exact run_shape_firewallList c ctx options
  all_goals
    simp only [run, withValue, errorOnly, withOutcome,
      backupsServiceHandler.List, backupsServiceHandler.DeleteBackup,
      backupsServiceHandler.CreateBackups, backupsServiceHandler.ListByServer,
      backupsServiceHandler.CreateServerByBackup, backupsServiceHandler.Get,
      backupsServiceHandler.EnableAutoBackup, backupsServiceHandler.Rename,
      backupsServiceHandler.ListBackupPolicies, backupsServiceHandler.GetBackupPolicy,
      backupsServiceHandler.CreateBackupPolicy, backupsServiceHandler.DeleteBackupPolicy,
      backupsServiceHandler.ManageRetainBackupPolicy, backupsServiceHandler.AttachBackupPolicy,
      backupsServiceHandler.DetachBackupPolicy,
      firewallGroupServiceHandler.Create, firewallGroupServiceHandler.List,
      firewallGroupServiceHandler.Get, firewallGroupServiceHandler.Delete,
      firewallGroupServiceHandler.AssignToVpsie, firewallGroupServiceHandler.AttachToVpsie,
      firewallGroupServiceHandler.DetachFromVpsie, firewallGroupServiceHandler.Update,
      firewallGroupServiceHandler.GetFirewallGroup,
      firewallGroupServiceHandler.DeleteFirewallGroupOfServer,
      projectsServiceHandler.List, projectsServiceHandler.SetDefault,
      projectsServiceHandler.Get, projectsServiceHandler.Create,
      projectsServiceHandler.ListAnotherVms, projectsServiceHandler.MoveVms,
      projectsServiceHandler.AssignToVms, projectsServiceHandler.ListDomains,
      projectsServiceHandler.Delete, projectsServiceHandler.ListUserLimits,
      Client.NewRequest, Client.Do, bind, pure, Op.returnsValue]
    split <;> (try split) <;>
    first
    | exact RunShape.newRequestFailed _ _ _ _ _ (by simp [verbs])
        (by repeat (first
          | exact apiRoot_backupsPath | exact apiRoot_firewallGroupBasePath
          | exact apiRoot_projectsBasePath | exact apiRoot_domains | exact apiRoot_limits
          | apply apiRoot_append))
        (by assumption) rfl (by simp)
    | exact RunShape.ofDo _ _ _ _ _ (by simp [verbs])
        (by repeat (first
          | exact apiRoot_backupsPath | exact apiRoot_firewallGroupBasePath
          | exact apiRoot_projectsBasePath | exact apiRoot_domains | exact apiRoot_limits
          | apply apiRoot_append))
        (by assumption)
    | exact RunShape.doFailed _ _ _ _ _ _ _ (by simp [verbs])
        (by repeat (first
          | exact apiRoot_backupsPath | exact apiRoot_firewallGroupBasePath
          | exact apiRoot_projectsBasePath | exact apiRoot_domains | exact apiRoot_limits
          | apply apiRoot_append))
        (by assumption) (by assumption) rfl (by simp)
    | exact RunShape.doSucceeded _ _ _ _ _ _ (by simp [verbs])
        (by repeat (first
          | exact apiRoot_backupsPath | exact apiRoot_firewallGroupBasePath
          | exact apiRoot_projectsBasePath | exact apiRoot_domains | exact apiRoot_limits
          | apply apiRoot_append))
        (by assumption) (by assumption) (by simp)

theorem do_mem_single {ctx1 ctx : Context} {req : Option Request} {t : Target} {v : t.type}
    {m p : String} {b : Body} (h : Call.Do ctx1 req t v ∈ [Call.NewRequest ctx m p b]) :
    False := by
  rcases List.mem_singleton.1 h with h
  cases h

theorem do_mem_pair {ctx1 ctx ctx2 : Context} {req req2 : Option Request} {t t2 : Target}
    {v : t.type} {v2 : t2.type} {m p : String} {b : Body}
    (h : Call.Do ctx1 req t v ∈ [Call.NewRequest ctx m p b, Call.Do ctx2 req2 t2 v2]) :
    Call.Do ctx1 req t v = Call.Do ctx2 req2 t2 v2 := by
  rcases List.mem_cons.1 h with h | h
  · cases h
  · exact List.mem_singleton.1 h

theorem newRequest_mem_single {ctx1 ctx : Context} {m1 p1 m p : String} {b1 b : Body}
    (h : Call.NewRequest ctx1 m1 p1 b1 ∈ [Call.NewRequest ctx m p b]) :
    Call.NewRequest ctx1 m1 p1 b1 = Call.NewRequest ctx m p b :=
  List.mem_singleton.1 h

theorem newRequest_mem_pair {ctx1 ctx ctx2 : Context} {m1 p1 m p : String} {b1 b : Body}
    {req2 : Option Request} {t2 : Target} {v2 : t2.type}
    (h : Call.NewRequest ctx1 m1 p1 b1 ∈ [Call.NewRequest ctx m p b, Call.Do ctx2 req2 t2 v2]) :
    Call.NewRequest ctx1 m1 p1 b1 = Call.NewRequest ctx m p b := by
  rcases List.mem_cons.1 h with h | h
  · exact h
  · rcases List.mem_singleton.1 h with h
    cases h

/-! ## Error handling of the handlers -/

/-- C1 (counterexample): the backups `List`, run on a client whose `Do` fills
the envelope with `Error = true` and one backup and returns nil, returns that
backup and a nil error. -/
theorem C1_counterexample :
    (run flaggedClient ⟨0⟩ (Op.backupsList none)).calls =
      [Call.NewRequest ⟨0⟩ "GET" "/apps/v2/backups" Body.nil,
       Call.Do ⟨0⟩ (some ⟨"GET", "/apps/v2/backups", ""⟩) Target.listBackupsRoot default] ∧
    Target.envelopeError Target.listBackupsRoot
      (flaggedClient.doFn ⟨0⟩ (some ⟨"GET", "/apps/v2/backups", ""⟩)
        Target.listBackupsRoot default).1 = true ∧
    (run flaggedClient ⟨0⟩ (Op.backupsList none)).val =
      Outcome.returned (Ret.backups (some [default]), none) :=
  ⟨rfl, rfl, rfl⟩

theorem run_firewallList_independent_of_error_flag (c1 c2 : Client) (ctx : Context)
    (options : Option ListOptions)
    (hreq : ∀ ctx1 m p b, c2.newRequestFn ctx1 m p b = c1.newRequestFn ctx1 m p b)
    (hdo : ∀ ctx1 req (t : Target) (v : t.type),
      (c2.doFn ctx1 req t v).2 = (c1.doFn ctx1 req t v).2 ∧
      Target.eraseError t (c2.doFn ctx1 req t v).1 =
        Target.eraseError t (c1.doFn ctx1 req t v).1) :
    (run c2 ctx (Op.firewallList options)).calls = (run c1 ctx (Op.firewallList options)).calls ∧
    (run c2 ctx (Op.firewallList options)).val = (run c1 ctx (Op.firewallList options)).val := by
  have hdo2 : ∀ ctx1 req (t : Target) (v : t.type),
      (c2.doFn ctx1 req t v).2 = (c1.doFn ctx1 req t v).2 := fun ctx1 req t v => (hdo ctx1 req t v).1
  have h3 := (hdo ctx (c1.newRequestFn ctx MethodGet (firewallGroupBasePath ++ "/groups")
    Body.nil).1 Target.listFirewallGroupsRootPtr (some default)).2
  simp only [run, withOutcome, firewallGroupServiceHandler.List, Client.NewRequest, Client.Do,
    bind, pure, hreq, hdo2]
  revert h3
  rcases (c2.doFn ctx (c1.newRequestFn ctx MethodGet (firewallGroupBasePath ++ "/groups")
    Body.nil).1 Target.listFirewallGroupsRootPtr (some default)).1 with _ | x <;>
  rcases (c1.doFn ctx (c1.newRequestFn ctx MethodGet (firewallGroupBasePath ++ "/groups")
    Body.nil).1 Target.listFirewallGroupsRootPtr (some default)).1 with _ | y <;>
  intro h3 <;> simp only [Target.eraseError] at h3 ⊢
  · exact ⟨trivial, trivial⟩
  · cases h3
  · cases h3
  · have hd : x.Data = y.Data := by
      injection h3 with h3
      injection h3
    simp only [hd]
    exact ⟨trivial, trivial⟩

theorem run_independent_of_error_flag (c1 c2 : Client) (ctx : Context) (op : Op)
    (hreq : ∀ ctx1 m p b, c2.newRequestFn ctx1 m p b = c1.newRequestFn ctx1 m p b)
    (hdo : ∀ ctx1 req (t : Target) (v : t.type),
      (c2.doFn ctx1 req t v).2 = (c1.doFn ctx1 req t v).2 ∧
      Target.eraseError t (c2.doFn ctx1 req t v).1 =
        Target.eraseError t (c1.doFn ctx1 req t v).1) :
    (run c2 ctx op).calls = (run c1 ctx op).calls ∧
    (run c2 ctx op).val = (run c1 ctx op).val := by
  have hdo2 : ∀ ctx1 req (t : Target) (v : t.type),
      (c2.doFn ctx1 req t v).2 = (c1.doFn ctx1 req t v).2 := fun ctx1 req t v => (hdo ctx1 req t v).1
  have hd1 : ∀ ctx1 req v, (c2.doFn ctx1 req Target.listBackupsRoot v).1.Data =
      (c1.doFn ctx1 req Target.listBackupsRoot v).1.Data :=
    fun ctx1 req v => by
      have h := congrArg ListBackupsRoot.Data (hdo ctx1 req Target.listBackupsRoot v).2
      exact h
  have hd2 : ∀ ctx1 req v, (c2.doFn ctx1 req Target.getBackupsRoot v).1.Data =
      (c1.doFn ctx1 req Target.getBackupsRoot v).1.Data :=
    fun ctx1 req v => by
      have h := congrArg GetBackupsRoot.Data (hdo ctx1 req Target.getBackupsRoot v).2
      exact h
  have hd3 : ∀ ctx1 req v, (c2.doFn ctx1 req Target.listBackupPoliciesRoot v).1.Data =
      (c1.doFn ctx1 req Target.listBackupPoliciesRoot v).1.Data :=
    fun ctx1 req v => by
      have h := congrArg ListBackupPoliciesRoot.Data (hdo ctx1 req Target.listBackupPoliciesRoot v).2
      exact h
  have hd4 : ∀ ctx1 req v, (c2.doFn ctx1 req Target.getBackupPolicyRoot v).1.Data =
      (c1.doFn ctx1 req Target.getBackupPolicyRoot v).1.Data :=
    fun ctx1 req v => by
      have h := congrArg GetBackupPolicyRoot.Data (hdo ctx1 req Target.getBackupPolicyRoot v).2
      exact h
  have hd5 : ∀ ctx1 req v, (c2.doFn ctx1 req Target.getFirewallGroupRoot v).1.Data =
      (c1.doFn ctx1 req Target.getFirewallGroupRoot v).1.Data :=
    fun ctx1 req v => by
      have h := congrArg GetFirewallGroupRoot.Data (hdo ctx1 req Target.getFirewallGroupRoot v).2
      exact h
  have hd6 : ∀ ctx1 req v, (c2.doFn ctx1 req Target.projectsRoot v).1.Data =
      (c1.doFn ctx1 req Target.projectsRoot v).1.Data :=
    fun ctx1 req v => by
      have h := congrArg ProjectsRoot.Data (hdo ctx1 req Target.projectsRoot v).2
      exact h
  have hd7 : ∀ ctx1 req v, (c2.doFn ctx1 req Target.projectRoot v).1.Project =
      (c1.doFn ctx1 req Target.projectRoot v).1.Project :=
    fun ctx1 req v => by
      have h := congrArg ProjectRoot.Project (hdo ctx1 req Target.projectRoot v).2
      exact h
  have hd8 : ∀ ctx1 req v, (c2.doFn ctx1 req Target.listServerRoot v).1.Data =
      (c1.doFn ctx1 req Target.listServerRoot v).1.Data :=
    fun ctx1 req v => by
      have h := congrArg ListServerRoot.Data (hdo ctx1 req Target.listServerRoot v).2
      exact h
  have hd9 : ∀ ctx1 req v, (c2.doFn ctx1 req Target.listDomainRoot v).1.Data =
      (c1.doFn ctx1 req Target.listDomainRoot v).1.Data :=
    fun ctx1 req v => by
      have h := congrArg ListDomainRoot.Data (hdo ctx1 req Target.listDomainRoot v).2
      exact h
  have hd10 : ∀ ctx1 req v, (c2.doFn ctx1 req Target.listUserLimitRoot v).1.Data =
      (c1.doFn ctx1 req Target.listUserLimitRoot v).1.Data :=
    fun ctx1 req v => by
      have h := congrArg ListUserLimitRoot.Data (hdo ctx1 req Target.listUserLimitRoot v).2
      exact h
  cases op
  case firewallList options =>
    exact run_firewallList_independent_of_error_flag c1 c2 ctx options hreq hdo
  all_goals
    simp only [run, withValue, errorOnly,
      backupsServiceHandler.List, backupsServiceHandler.DeleteBackup,
      backupsServiceHandler.CreateBackups, backupsServiceHandler.ListByServer,
      backupsServiceHandler.CreateServerByBackup, backupsServiceHandler.Get,
      backupsServiceHandler.EnableAutoBackup, backupsServiceHandler.Rename,
      backupsServiceHandler.ListBackupPolicies, backupsServiceHandler.GetBackupPolicy,
      backupsServiceHandler.CreateBackupPolicy, backupsServiceHandler.DeleteBackupPolicy,
      backupsServiceHandler.ManageRetainBackupPolicy, backupsServiceHandler.AttachBackupPolicy,
      backupsServiceHandler.DetachBackupPolicy,
      firewallGroupServiceHandler.Create,
      firewallGroupServiceHandler.Get, firewallGroupServiceHandler.Delete,
      firewallGroupServiceHandler.AssignToVpsie, firewallGroupServiceHandler.AttachToVpsie,
      firewallGroupServiceHandler.DetachFromVpsie, firewallGroupServiceHandler.Update,
      firewallGroupServiceHandler.GetFirewallGroup,
      firewallGroupServiceHandler.DeleteFirewallGroupOfServer,
      projectsServiceHandler.List, projectsServiceHandler.SetDefault,
      projectsServiceHandler.Get, projectsServiceHandler.Create,
      projectsServiceHandler.ListAnotherVms, projectsServiceHandler.MoveVms,
      projectsServiceHandler.AssignToVms, projectsServiceHandler.ListDomains,
      projectsServiceHandler.Delete, projectsServiceHandler.ListUserLimits,
      Client.NewRequest, Client.Do, bind, pure, hreq, hdo2,
      hd1, hd2, hd3, hd4, hd5, hd6, hd7, hd8, hd9, hd10]
    exact ⟨trivial, trivial⟩

/-- C1 (amended): the handlers do not read the `error` field of the envelope.
Two clients that agree on what `NewRequest` returns, on the error `Do` returns
and on all that `Do` leaves in its target apart from the `error` field make
every operation issue the same calls and return the same value and error. The
error an operation returns after calling `Do` is the error `Do` returned: a
non-nil one comes back unchanged next to a nil value, a nil one gives a nil
error (or the panic of the firewall `List`). -/
theorem C1_envelope_error_flag_is_not_read (c1 c2 : Client) (ctx : Context) (op : Op)
    (hreq : ∀ ctx1 m p b, c2.newRequestFn ctx1 m p b = c1.newRequestFn ctx1 m p b)
    (hdo : ∀ ctx1 req (t : Target) (v : t.type),
      (c2.doFn ctx1 req t v).2 = (c1.doFn ctx1 req t v).2 ∧
      Target.eraseError t (c2.doFn ctx1 req t v).1 =
        Target.eraseError t (c1.doFn ctx1 req t v).1) :
    (run c2 ctx op).calls = (run c1 ctx op).calls ∧
    (run c2 ctx op).val = (run c1 ctx op).val ∧
    (∀ ctx1 req (t : Target) (v : t.type), Call.Do ctx1 req t v ∈ (run c1 ctx op).calls →
      (∀ e, (c1.doFn ctx1 req t v).2 = some e →
        ∃ r, (run c1 ctx op).val = Outcome.returned (r, some e) ∧ r.isNil = true) ∧
      ((c1.doFn ctx1 req t v).2 = none →
        (run c1 ctx op).val = Outcome.panicked ∨
        ∃ r, (run c1 ctx op).val = Outcome.returned (r, none))) := by
  refine ⟨(run_independent_of_error_flag c1 c2 ctx op hreq hdo).1,
    (run_independent_of_error_flag c1 c2 ctx op hreq hdo).2, ?_⟩
  have h := run_shape c1 ctx op
  generalize run c1 ctx op = tr at h
  intro ctx1 req t v hcall
  cases h with
  | newRequestFailed m p b e1 r hm hp h1 hr hv1 => exact (do_mem_single hcall).elim
  | doFailed m p b t1 v1 e1 r hm hp h1 h2 hr hv1 =>
    cases do_mem_pair hcall
    constructor
    · intro e he
      rw [h2] at he
      cases he
      exact ⟨r, rfl, hr⟩
    · intro hn
      rw [h2] at hn
      cases hn
  | doSucceeded m p b t1 v1 r hm hp h1 h2 hv1 =>
    cases do_mem_pair hcall
    constructor
    · intro e he
      rw [h2] at he
      cases he
    · intro _
      exact Or.inr ⟨r, rfl⟩
  | doSucceededPanicked m p b t1 v1 hm hp h1 h2 hv1 =>
    cases do_mem_pair hcall
    constructor
    · intro e he
      rw [h2] at he
      cases he
    · intro _
      exact Or.inl rfl

/-- C1 (amended), evaluated: the backups `List` on two clients whose `Do`
leaves the same backups and returns nil, one with `Error = true` in the
envelope and one with `Error = false`, returns the same backups and a nil
error. -/
theorem C1_envelope_error_flag_is_not_read_witness :
    Target.envelopeError Target.listBackupsRoot
      (flaggedClient.doFn ⟨0⟩ (some ⟨"GET", "/apps/v2/backups", ""⟩)
        Target.listBackupsRoot default).1 = true ∧
    Target.envelopeError Target.listBackupsRoot
      (unflaggedClient.doFn ⟨0⟩ (some ⟨"GET", "/apps/v2/backups", ""⟩)
        Target.listBackupsRoot default).1 = false ∧
    (run unflaggedClient ⟨0⟩ (Op.backupsList none)).val =
      (run flaggedClient ⟨0⟩ (Op.backupsList none)).val ∧
    (run unflaggedClient ⟨0⟩ (Op.backupsList none)).val =
      Outcome.returned (Ret.backups (some [default]), none) :=
  ⟨rfl, rfl,
    (C1_envelope_error_flag_is_not_read flaggedClient unflaggedClient ⟨0⟩ (Op.backupsList none)
      (fun _ _ _ _ => rfl)
      (fun _ _ t _ => by cases t <;> exact ⟨rfl, rfl⟩)).2.1,
    rfl⟩

/-- C2: whenever an operation returns a non-nil error, the value returned next
to it is nil. -/
theorem C2_error_excludes_value (c : Client) (ctx : Context) (op : Op) (r : Ret) (e : Err)
    (h : (run c ctx op).val = Outcome.returned (r, some e)) : r.isNil = true := by
  have hs := run_shape c ctx op
  revert h
  generalize run c ctx op = tr at hs
  intro h
  cases hs with
  | newRequestFailed m p b e1 r1 hm hp h1 hr hv1 =>
    cases h
    exact hr
  | doFailed m p b t1 v1 e1 r1 hm hp h1 h2 hr hv1 =>
    cases h
    exact hr
  | doSucceeded m p b t1 v1 r1 hm hp h1 h2 hv1 => cases h
  | doSucceededPanicked m p b t1 v1 hm hp h1 h2 hv1 => cases h

/-- C2, evaluated: the backups `Get` on a client whose `Do` fails. -/
theorem C2_error_excludes_value_witness :
    (run doFailsClient ⟨0⟩ (Op.backupsGet "b1")).val =
      Outcome.returned (Ret.backup none, some ⟨"request failed"⟩) ∧
    (Ret.backup none).isNil = true :=
  ⟨rfl, C2_error_excludes_value doFailsClient ⟨0⟩ (Op.backupsGet "b1") (Ret.backup none)
    ⟨"request failed"⟩ rfl⟩

/-- C3 (failing input): the projects `Get` on a client whose `NewRequest` and
`Do` both succeed, `Do` leaving the envelope without a project, returns a nil
pointer and a nil error. -/
theorem C3_projects_Get_returns_nil_nil :
    (okClient.newRequestFn ⟨0⟩ "GET" "/apps/v2/projects/p1" Body.nil).2 = none ∧
    (okClient.doFn ⟨0⟩ (some ⟨"GET", "/apps/v2/projects/p1", ""⟩) Target.projectRoot default).2
      = none ∧
    (run okClient ⟨0⟩ (Op.projectsGet "p1")).calls =
      [Call.NewRequest ⟨0⟩ "GET" "/apps/v2/projects/p1" Body.nil,
       Call.Do ⟨0⟩ (some ⟨"GET", "/apps/v2/projects/p1", ""⟩) Target.projectRoot default] ∧
    ((projectsServiceHandler.mk okClient).Get ⟨0⟩ "p1").val = (none, none) :=
  ⟨rfl, rfl, rfl, rfl⟩

/-- The single-object getters that take the address of a field of the envelope
return a non-nil pointer whenever they return a nil error. -/
theorem getters_by_address_return_a_pointer (c : Client) (ctx : Context) (id : String) (r : Ret)
    (op : Op)
    (hop : op = Op.backupsGet id ∨ op = Op.backupsGetBackupPolicy id ∨ op = Op.firewallGet id ∨
      op = Op.firewallGetFirewallGroup id ∨ op = Op.projectsListUserLimits)
    (h : (run c ctx op).val = Outcome.returned (r, none)) : r.isNil = false := by
  revert h
  rcases hop with rfl | rfl | rfl | rfl | rfl <;>
    simp only [run, withValue, backupsServiceHandler.Get, backupsServiceHandler.GetBackupPolicy,
      firewallGroupServiceHandler.Get, firewallGroupServiceHandler.GetFirewallGroup,
      projectsServiceHandler.ListUserLimits, Client.NewRequest, Client.Do, bind, pure] <;>
    split <;> (try split) <;> intro h <;> cases h <;> rfl

/-- C4: the error of `NewRequest`, and otherwise the error of `Do`, is what the
operation returns, unchanged; a nil error is returned only when both calls
returned nil. -/
theorem C4_errors_returned_verbatim (c : Client) (ctx : Context) (op : Op) :
    ∃ m p b, Call.NewRequest ctx m p b ∈ (run c ctx op).calls ∧
      (∀ e, (c.newRequestFn ctx m p b).2 = some e →
        ∃ r, (run c ctx op).val = Outcome.returned (r, some e)) ∧
      ((c.newRequestFn ctx m p b).2 = none →
        ∃ (t : Target) (v : t.type),
          Call.Do ctx (c.newRequestFn ctx m p b).1 t v ∈ (run c ctx op).calls ∧
          (∀ e, (c.doFn ctx (c.newRequestFn ctx m p b).1 t v).2 = some e →
            ∃ r, (run c ctx op).val = Outcome.returned (r, some e)) ∧
          (∀ r, (run c ctx op).val = Outcome.returned (r, none) →
            (c.doFn ctx (c.newRequestFn ctx m p b).1 t v).2 = none)) ∧
      (∀ r, (run c ctx op).val = Outcome.returned (r, none) →
        (c.newRequestFn ctx m p b).2 = none) := by
  have hs := run_shape c ctx op
  generalize run c ctx op = tr at hs
  cases hs with
  | newRequestFailed m p b e1 r1 hm hp h1 hr hv1 =>
    refine ⟨m, p, b, List.Mem.head _, ?_, ?_, ?_⟩
    · intro e he
      rw [h1] at he
      cases he
      exact ⟨r1, rfl⟩
    · intro hn
      rw [h1] at hn
      cases hn
    · intro r hr0
      cases hr0
  | doFailed m p b t1 v1 e1 r1 hm hp h1 h2 hr hv1 =>
    refine ⟨m, p, b, List.Mem.head _, ?_, ?_, ?_⟩
    · intro e he
      rw [h1] at he
      cases he
    · intro _
      refine ⟨t1, v1, List.Mem.tail _ (List.Mem.head _), ?_, ?_⟩
      · intro e he
        rw [h2] at he
        cases he
        exact ⟨r1, rfl⟩
      · intro r hr0
        cases hr0
    · intro r hr0
      cases hr0
  | doSucceeded m p b t1 v1 r1 hm hp h1 h2 hv1 =>
    refine ⟨m, p, b, List.Mem.head _, ?_, ?_, ?_⟩
    · intro e he
      rw [h1] at he
      cases he
    · intro _
      refine ⟨t1, v1, List.Mem.tail _ (List.Mem.head _), ?_, ?_⟩
      · intro e he
        rw [h2] at he
        cases he
      · intro r _
        exact h2
    · intro r _
      exact h1
  | doSucceededPanicked m p b t1 v1 hm hp h1 h2 hv1 =>
    refine ⟨m, p, b, List.Mem.head _, ?_, ?_, ?_⟩
    · intro e he
      rw [h1] at he
      cases he
    · intro _
      refine ⟨t1, v1, List.Mem.tail _ (List.Mem.head _), ?_, ?_⟩
      · intro e he
        rw [h2] at he
        cases he
      · intro r _
        exact h2
    · intro r _
      exact h1

/-- C5: every operation calls `NewRequest` exactly once and first; it calls
`Do` exactly once, on the request `NewRequest` returned, when `NewRequest`
returned a nil error, and not at all when `NewRequest` returned an error, which
the operation then returns. -/
theorem C5_single_request (c : Client) (ctx : Context) (op : Op) :
    (run c ctx op).calls.countP Call.isNewRequest = 1 ∧
    (run c ctx op).calls.countP Call.isDo ≤ 1 ∧
    ∃ m p b, (run c ctx op).calls.head? = some (Call.NewRequest ctx m p b) ∧
      ((c.newRequestFn ctx m p b).2 = none →
        (run c ctx op).calls.countP Call.isDo = 1 ∧
        ∃ (t : Target) (v : t.type), (run c ctx op).calls =
          [Call.NewRequest ctx m p b, Call.Do ctx (c.newRequestFn ctx m p b).1 t v]) ∧
      (∀ e, (c.newRequestFn ctx m p b).2 = some e →
        (run c ctx op).calls.countP Call.isDo = 0 ∧
        (run c ctx op).calls = [Call.NewRequest ctx m p b] ∧
        ∃ r, (run c ctx op).val = Outcome.returned (r, some e)) := by
  have hs := run_shape c ctx op
  generalize run c ctx op = tr at hs
  cases hs with
  | newRequestFailed m p b e1 r1 hm hp h1 hr hv1 =>
    refine ⟨rfl, Nat.zero_le _, m, p, b, rfl, ?_, ?_⟩
    · intro hn
      rw [h1] at hn
      cases hn
    · intro e he
      rw [h1] at he
      cases he
      exact ⟨rfl, rfl, r1, rfl⟩
  | doFailed m p b t1 v1 e1 r1 hm hp h1 h2 hr hv1 =>
    refine ⟨rfl, le_refl _, m, p, b, rfl, ?_, ?_⟩
    · intro _
      exact ⟨rfl, t1, v1, rfl⟩
    · intro e he
      rw [h1] at he
      cases he
  | doSucceeded m p b t1 v1 r1 hm hp h1 h2 hv1 =>
    refine ⟨rfl, le_refl _, m, p, b, rfl, ?_, ?_⟩
    · intro _
      exact ⟨rfl, t1, v1, rfl⟩
    · intro e he
      rw [h1] at he
      cases he
  | doSucceededPanicked m p b t1 v1 hm hp h1 h2 hv1 =>
    refine ⟨rfl, le_refl _, m, p, b, rfl, ?_, ?_⟩
    · intro _
      exact ⟨rfl, t1, v1, rfl⟩
    · intro e he
      rw [h1] at he
      cases he

/-! ## Requests and results of the handlers -/

/-- C6 (counterexample): the projects `List` called with page 1 and with page 2
hands `NewRequest` the same method, the same path without a query string and
the same nil body. -/
theorem C6_counterexample :
    (run okClient ⟨0⟩ (Op.projectsList (some ⟨1, 10, []⟩))).calls =
      [Call.NewRequest ⟨0⟩ "GET" "/apps/v2/projects" Body.nil,
       Call.Do ⟨0⟩ (some ⟨"GET", "/apps/v2/projects", ""⟩) Target.projectsRoot default] ∧
    (run okClient ⟨0⟩ (Op.projectsList (some ⟨2, 10, []⟩))).calls =
      [Call.NewRequest ⟨0⟩ "GET" "/apps/v2/projects" Body.nil,
       Call.Do ⟨0⟩ (some ⟨"GET", "/apps/v2/projects", ""⟩) Target.projectsRoot default] :=
  ⟨rfl, rfl⟩

/-- C6 (amended): a list operation ignores its options: with any two options
values it makes the same calls to the client, with the same arguments, and
returns the same result. -/
theorem C6_options_are_ignored (c : Client) (ctx : Context) (l : ListOp)
    (o1 o2 : Option ListOptions) :
    (run c ctx (l.withOptions o1)).calls = (run c ctx (l.withOptions o2)).calls ∧
    (run c ctx (l.withOptions o1)).val = (run c ctx (l.withOptions o2)).val := by
  cases l <;> exact ⟨rfl, rfl⟩

/-- When `NewRequest` and `Do` both return a nil error, the backups `List`, the
backups `ListByServer` and the firewall `List` return the `Data` slice of the
envelope `Do` filled in, and the projects `List` and the backups
`ListBackupPolicies` return its `Data.Rows` slice, each with a nil error; for
the firewall `List` this needs `Do` to leave the pointer `fwGroups` non-nil. -/
theorem list_handlers_return_decoded_data (c : Client) (ctx : Context)
    (options : Option ListOptions) (serverId : String) :
    (∀ root : ListBackupsRoot,
      (c.newRequestFn ctx MethodGet (backupsPath ++ "/backups") Body.nil).2 = none →
      c.doFn ctx (c.newRequestFn ctx MethodGet (backupsPath ++ "/backups") Body.nil).1
        Target.listBackupsRoot default = (root, none) →
      ((backupsServiceHandler.mk c).List ctx options).val = (root.Data, none)) ∧
    (∀ root : ListBackupsRoot,
      (c.newRequestFn ctx MethodGet (backupsPath ++ "/vm/backups/" ++ serverId) Body.nil).2
        = none →
      c.doFn ctx (c.newRequestFn ctx MethodGet (backupsPath ++ "/vm/backups/" ++ serverId)
        Body.nil).1 Target.listBackupsRoot default = (root, none) →
      ((backupsServiceHandler.mk c).ListByServer ctx options serverId).val = (root.Data, none)) ∧
    (∀ root : ListFirewallGroupsRoot,
      (c.newRequestFn ctx MethodGet (firewallGroupBasePath ++ "/groups") Body.nil).2 = none →
      c.doFn ctx (c.newRequestFn ctx MethodGet (firewallGroupBasePath ++ "/groups") Body.nil).1
        Target.listFirewallGroupsRootPtr (some default) = (some root, none) →
      ((firewallGroupServiceHandler.mk c).List ctx options).val
        = Outcome.returned (root.Data, none)) ∧
    (∀ root : ProjectsRoot,
      (c.newRequestFn ctx MethodGet projectsBasePath Body.nil).2 = none →
      c.doFn ctx (c.newRequestFn ctx MethodGet projectsBasePath Body.nil).1
        Target.projectsRoot default = (root, none) →
      ((projectsServiceHandler.mk c).List ctx options).val = (root.Data.Rows, none)) ∧
    (∀ root : ListBackupPoliciesRoot,
      (c.newRequestFn ctx MethodGet (backupsPath ++ "/backups/policy/all") Body.nil).2 = none →
      c.doFn ctx (c.newRequestFn ctx MethodGet (backupsPath ++ "/backups/policy/all")
        Body.nil).1 Target.listBackupPoliciesRoot default = (root, none) →
      ((backupsServiceHandler.mk c).ListBackupPolicies ctx options).val
        = (root.Data.Rows, none)) := by
  refine ⟨?_, ?_, ?_, ?_, ?_⟩ <;> intro root h1 h2
  · simp only [backupsServiceHandler.List, Client.NewRequest, Client.Do, bind, pure, h1, h2]
  · simp only [backupsServiceHandler.ListByServer, Client.NewRequest, Client.Do, bind, pure,
      h1, h2]
  · simp only [firewallGroupServiceHandler.List, Client.NewRequest, Client.Do, bind, pure,
      h1, h2]
  · simp only [projectsServiceHandler.List, Client.NewRequest, Client.Do, bind, pure, h1, h2]
  · simp only [backupsServiceHandler.ListBackupPolicies, Client.NewRequest, Client.Do, bind,
      pure, h1, h2]

/-- An envelope with `error` false and an empty `data` array makes the backups
`List` return an empty, non-nil slice and a nil error. -/
theorem list_handlers_return_decoded_data_at_empty_array :
    ((backupsServiceHandler.mk emptyListClient).List ⟨0⟩ none).val = (some [], none) :=
  (list_handlers_return_decoded_data emptyListClient ⟨0⟩ none "vm1").1
    ⟨false, some [], 0⟩ rfl rfl

/-- C7 (failing input): on a client whose `NewRequest` and `Do` both return
nil, `Do` having decoded the body `null`, the firewall `List` dereferences the
nil pointer `fwGroups` and panics, while the backups `List`, the backups
`ListByServer`, the projects `List` and the backups `ListBackupPolicies` return
the nil slice of their untouched envelope and a nil error. -/
theorem C7_firewall_List_panics_on_null_body :
    (nullBodyClient.newRequestFn ⟨0⟩ "GET" "/apps/v2/firewall/groups" Body.nil).2 = none ∧
    nullBodyClient.doFn ⟨0⟩ (some ⟨"GET", "/apps/v2/firewall/groups", ""⟩)
      Target.listFirewallGroupsRootPtr (some default) = (none, none) ∧
    ((firewallGroupServiceHandler.mk nullBodyClient).List ⟨0⟩ none).calls =
      [Call.NewRequest ⟨0⟩ "GET" "/apps/v2/firewall/groups" Body.nil,
       Call.Do ⟨0⟩ (some ⟨"GET", "/apps/v2/firewall/groups", ""⟩)
         Target.listFirewallGroupsRootPtr (some default)] ∧
    ((firewallGroupServiceHandler.mk nullBodyClient).List ⟨0⟩ none).val = Outcome.panicked ∧
    ((backupsServiceHandler.mk nullBodyClient).List ⟨0⟩ none).val = (none, none) ∧
    ((backupsServiceHandler.mk nullBodyClient).ListByServer ⟨0⟩ none "vm1").val = (none, none) ∧
    ((projectsServiceHandler.mk nullBodyClient).List ⟨0⟩ none).val = (none, none) ∧
    ((backupsServiceHandler.mk nullBodyClient).ListBackupPolicies ⟨0⟩ none).val = (none, none) :=
  ⟨rfl, rfl, rfl, rfl, rfl, rfl, rfl, rfl⟩

/-- C8: an operation whose only result is an error hands `Do` a nil decode
target, and returns a nil error exactly when `NewRequest` and `Do` both
returned nil. -/
theorem C8_error_only_operations (c : Client) (ctx : Context) (op : Op)
    (hv : op.returnsValue = false) :
    ∃ m p b, (run c ctx op).calls.head? = some (Call.NewRequest ctx m p b) ∧
      (∀ ctx1 req t v, Call.Do ctx1 req t v ∈ (run c ctx op).calls → t = Target.nil) ∧
      ((c.newRequestFn ctx m p b).2 = none →
        Call.Do ctx (c.newRequestFn ctx m p b).1 Target.nil () ∈ (run c ctx op).calls) ∧
      (∃ err, (run c ctx op).val = Outcome.returned (Ret.errOnly, err)) ∧
      ((run c ctx op).val = Outcome.returned (Ret.errOnly, none) ↔
        (c.newRequestFn ctx m p b).2 = none ∧
        (c.doFn ctx (c.newRequestFn ctx m p b).1 Target.nil ()).2 = none) := by
  have hs := run_shape c ctx op
  rw [hv] at hs
  generalize run c ctx op = tr at hs
  cases hs with
  | newRequestFailed m p b e1 r1 hm hp h1 hr hv1 =>
    obtain rfl := hv1 rfl
    refine ⟨m, p, b, rfl, ?_, ?_, ⟨some e1, rfl⟩, ?_⟩
    · intro ctx1 req t v hmem
      exact (do_mem_single hmem).elim
    · intro hn
      rw [h1] at hn
      cases hn
    · constructor
      · intro h
        cases h
      · rintro ⟨hn, _⟩
        rw [h1] at hn
        cases hn
  | doFailed m p b t1 v1 e1 r1 hm hp h1 h2 hr hv1 =>
    obtain ⟨rfl, rfl⟩ := hv1 rfl
    refine ⟨m, p, b, rfl, ?_, ?_, ⟨some e1, rfl⟩, ?_⟩
    · intro ctx1 req t v hmem
      cases do_mem_pair hmem
      rfl
    · intro _
      exact List.Mem.tail _ (List.Mem.head _)
    · constructor
      · intro h
        cases h
      · rintro ⟨_, hn⟩
        rw [h2] at hn
        cases hn
  | doSucceeded m p b t1 v1 r1 hm hp h1 h2 hv1 =>
    obtain ⟨rfl, rfl⟩ := hv1 rfl
    refine ⟨m, p, b, rfl, ?_, ?_, ⟨none, rfl⟩, ?_⟩
    · intro ctx1 req t v hmem
      cases do_mem_pair hmem
      rfl
    · intro _
      exact List.Mem.tail _ (List.Mem.head _)
    · exact ⟨fun _ => ⟨h1, h2⟩, fun _ => rfl⟩
  | doSucceededPanicked m p b t1 v1 hm hp h1 h2 hv1 => cases hv1

/-- C8, evaluated: the projects `Delete` on a client whose two methods succeed
hands `Do` a nil target and returns a nil error. -/
theorem C8_error_only_operations_witness :
    ∃ m p b, (run okClient ⟨0⟩ (Op.projectsDelete "p1")).calls.head?
        = some (Call.NewRequest ⟨0⟩ m p b) ∧
      (∀ ctx1 req t v, Call.Do ctx1 req t v ∈ (run okClient ⟨0⟩ (Op.projectsDelete "p1")).calls →
        t = Target.nil) ∧
      ((okClient.newRequestFn ⟨0⟩ m p b).2 = none →
        Call.Do ⟨0⟩ (okClient.newRequestFn ⟨0⟩ m p b).1 Target.nil ()
          ∈ (run okClient ⟨0⟩ (Op.projectsDelete "p1")).calls) ∧
      (∃ err, (run okClient ⟨0⟩ (Op.projectsDelete "p1")).val
        = Outcome.returned (Ret.errOnly, err)) ∧
      ((run okClient ⟨0⟩ (Op.projectsDelete "p1")).val = Outcome.returned (Ret.errOnly, none) ↔
        (okClient.newRequestFn ⟨0⟩ m p b).2 = none ∧
        (okClient.doFn ⟨0⟩ (okClient.newRequestFn ⟨0⟩ m p b).1 Target.nil ()).2 = none) :=
  C8_error_only_operations okClient ⟨0⟩ (Op.projectsDelete "p1") rfl

/-- C9 (counterexample): `DeleteBackupPolicy "pol1" "id1"` hands `NewRequest`
the path `/apps/v2/backup/policy/id1`, which is not under
`/apps/v2/backups/policy/`. -/
theorem C9_counterexample :
    ((backupsServiceHandler.mk okClient).DeleteBackupPolicy ⟨0⟩ "pol1" "id1").calls.head? =
      some (Call.NewRequest ⟨0⟩ "DELETE" "/apps/v2/backup/policy/id1"
        (Body.structVal [("policyId", FieldVal.str "pol1")])) ∧
    ¬ ("/apps/v2/backups/policy/".data <+: "/apps/v2/backup/policy/id1".data) :=
  ⟨rfl, by decide⟩

/-- C9 (amended): `DeleteBackupPolicy` hands `NewRequest` the method DELETE, the
path `/apps/v2/backup/policy/` followed by the identifier, which is never under
`/apps/v2/backups/policy/`, and a body whose `policyId` field is the policyId
argument; it returns a nil error when `NewRequest` and `Do` return nil. -/
theorem C9_delete_backup_policy (c : Client) (ctx : Context) (policyId identifier : String) :
    ∃ body,
      ((backupsServiceHandler.mk c).DeleteBackupPolicy ctx policyId identifier).calls.head? =
        some (Call.NewRequest ctx "DELETE" ("/apps/v2/backup/policy/" ++ identifier) body) ∧
      body.field "policyId" = some (FieldVal.str policyId) ∧
      identifier.data <:+ ("/apps/v2/backup/policy/" ++ identifier).data ∧
      ¬ ("/apps/v2/backups/policy/".data <+: ("/apps/v2/backup/policy/" ++ identifier).data) ∧
      ((c.newRequestFn ctx "DELETE" ("/apps/v2/backup/policy/" ++ identifier) body).2 = none →
        (c.doFn ctx (c.newRequestFn ctx "DELETE" ("/apps/v2/backup/policy/" ++ identifier)
          body).1 Target.nil ()).2 = none →
        ((backupsServiceHandler.mk c).DeleteBackupPolicy ctx policyId identifier).val = none) := by
  have hpath : backupsPath ++ "/backup/policy/" ++ identifier
      = "/apps/v2/backup/policy/" ++ identifier := by
    have h0 : backupsPath ++ "/backup/policy/" = "/apps/v2/backup/policy/" := by decide
    rw [h0]
  have hmeth : MethodDelete = "DELETE" := rfl
  refine ⟨Body.structVal [("policyId", FieldVal.str policyId)], ?_, ?_, ?_, ?_, ?_⟩
  · simp only [backupsServiceHandler.DeleteBackupPolicy, Client.NewRequest, Client.Do, bind,
      pure, hpath, hmeth]
    rfl
  · simp [Body.field, Body.fields]
  · rw [String.data_append]
    exact List.suffix_append _ _
  · rw [String.data_append]
    rintro ⟨t, ht⟩
    have h15 := congrArg (fun l => l.get? 15) ht
    simp at h15
  · intro h1 h2
    simp only [backupsServiceHandler.DeleteBackupPolicy, Client.NewRequest, Client.Do, bind,
      pure, hpath, hmeth, h1, h2]

/-- C10: the method every operation hands to `NewRequest` is GET, POST, PUT or
DELETE, and the path it hands to `NewRequest` is non-empty and begins with
`/apps/v2`. -/
theorem C10_call_sites_meet_preconditions (c : Client) (ctx : Context) (op : Op) :
    ∃ m p b, (run c ctx op).calls.head? = some (Call.NewRequest ctx m p b) ∧
      (run c ctx op).calls.countP Call.isNewRequest = 1 ∧
      (m = "GET" ∨ m = "POST" ∨ m = "PUT" ∨ m = "DELETE") ∧
      p ≠ "" ∧ "/apps/v2".data <+: p.data := by
  have key : ∀ (m p : String), m ∈ verbs → "/apps/v2".data <+: p.data →
      (m = "GET" ∨ m = "POST" ∨ m = "PUT" ∨ m = "DELETE") ∧ p ≠ "" ∧
        "/apps/v2".data <+: p.data := by
    intro m p hm hp
    refine ⟨?_, ?_, hp⟩
    · simpa [verbs, MethodGet, MethodPost, MethodPut, MethodDelete] using hm
    · rintro rfl
      rcases hp with ⟨t, ht⟩
      simp at ht
  have hs := run_shape c ctx op
  generalize run c ctx op = tr at hs
  cases hs with
  | newRequestFailed m p b e1 r1 hm hp h1 hr hv1 => exact ⟨m, p, b, rfl, rfl, key m p hm hp⟩
  | doFailed m p b t1 v1 e1 r1 hm hp h1 h2 hr hv1 => exact ⟨m, p, b, rfl, rfl, key m p hm hp⟩
  | doSucceeded m p b t1 v1 r1 hm hp h1 h2 hv1 => exact ⟨m, p, b, rfl, rfl, key m p hm hp⟩
  | doSucceededPanicked m p b t1 v1 hm hp h1 h2 hv1 => exact ⟨m, p, b, rfl, rfl, key m p hm hp⟩

/-! ## Wire names, retries and pages -/

/-- C11 (failing input): the JSON name of `Total` is `total` followed by a
blank in `ListBackupsRoot` and `total` in `ListFirewallGroupsRoot`; decoding
`{"error": false, "data": [], "total": 5}` leaves `Total = 0` in the first and
gives `Total = 5` in the second. -/
theorem C11_total_key_of_list_envelopes :
    ListBackupsRoot.fieldNames = ["error", "data", "total "] ∧
    ListFirewallGroupsRoot.fieldNames = ["error", "data", "total"] ∧
    fieldIndex ListBackupsRoot.fieldNames "total" = none ∧
    fieldIndex ListFirewallGroupsRoot.fieldNames "total" = some 2 ∧
    (ListBackupsRoot.unmarshal (fun _ => default) totalFiveBody default).Total = 0 ∧
    (ListFirewallGroupsRoot.unmarshal (fun _ => default) totalFiveBody default).Total = 5 := by
  refine ⟨?_, ?_, ?_, ?_, ?_, ?_⟩ <;> decide

theorem executeLoop_attempts_le (send : Nat → SendOutcome) :
    ∀ (remaining made : Nat) (last : APIError),
      (executeLoop send remaining made last).attempts ≤ made + remaining := by
  intro remaining
  induction remaining with
  | zero =>
    intro made last
    simp [executeLoop]
  | succ n ih =>
    intro made last
    simp only [executeLoop]
    cases send made with
    | response r =>
      by_cases h5 : isServerError r.status = true
      · simp only [h5, if_true]
        have := ih (made + 1) ⟨ErrorKind.transport, some r.status, "server error", r.body⟩
        omega
      · simp [h5]
    | networkFailure message =>
      have := ih (made + 1) ⟨ErrorKind.transport, none, message, ""⟩
      simp only []
      omega
    | cancelled =>
      simp only []
      omega

theorem executeLoop_all_server_errors (send : Nat → SendOutcome) :
    ∀ (remaining made : Nat) (last : APIError), last.kind = ErrorKind.transport →
      (∀ k, made ≤ k → k < made + remaining →
        ∃ r, send k = SendOutcome.response r ∧ isServerError r.status = true) →
      (executeLoop send remaining made last).attempts = made + remaining ∧
      ∃ e, (executeLoop send remaining made last).result = Except.error e ∧
        e.kind = ErrorKind.transport := by
  intro remaining
  induction remaining with
  | zero =>
    intro made last hlast _
    exact ⟨rfl, last, rfl, hlast⟩
  | succ n ih =>
    intro made last _ h
    obtain ⟨r, hr, h5⟩ := h made (le_refl _) (by omega)
    simp only [executeLoop, hr, h5, if_true]
    have := ih (made + 1) ⟨ErrorKind.transport, some r.status, "server error", r.body⟩ rfl
      (fun k hk1 hk2 => h k (by omega) (by omega))
    refine ⟨by omega, this.2⟩

theorem executeLoop_first_other_response (send : Nat → SendOutcome) :
    ∀ (remaining made : Nat) (last : APIError) (j : Nat) (r : RawResponse),
      made ≤ j → j < made + remaining →
      (∀ k, made ≤ k → k < j →
        ∃ r1, send k = SendOutcome.response r1 ∧ isServerError r1.status = true) →
      send j = SendOutcome.response r → isServerError r.status = false →
      (executeLoop send remaining made last).result = Except.ok r ∧
      (executeLoop send remaining made last).attempts = j + 1 := by
  intro remaining
  induction remaining with
  | zero =>
    intro made last j r h1 h2
    omega
  | succ n ih =>
    intro made last j r h1 h2 hbefore hj hr
    by_cases hmj : made = j
    · subst hmj
      simp only [executeLoop, hj, hr]
      exact ⟨rfl, rfl⟩
    · obtain ⟨r1, hr1, h5⟩ := hbefore made (le_refl _) (by omega)
      simp only [executeLoop, hr1, h5, if_true]
      exact ih (made + 1) _ j r (by omega) (by omega)
        (fun k hk1 hk2 => hbefore k (by omega) hk2) hj hr

/-- C12: `Execute` never makes more sends than the configured number of
attempts; when every send within the bound is answered with HTTP 5xx it makes
exactly that number of sends and returns a transport error; when the first
response that is not 5xx comes within the bound it returns that response. -/
theorem C12_bounded_retry (maxAttempts : Nat) (send : Nat → SendOutcome) :
    (Execute maxAttempts send).attempts ≤ maxAttempts ∧
    ((∀ k, k < maxAttempts →
        ∃ r, send k = SendOutcome.response r ∧ isServerError r.status = true) →
      (Execute maxAttempts send).attempts = maxAttempts ∧
      ∃ e, (Execute maxAttempts send).result = Except.error e ∧
        e.kind = ErrorKind.transport) ∧
    (∀ j r, j < maxAttempts →
      (∀ k, k < j → ∃ r1, send k = SendOutcome.response r1 ∧ isServerError r1.status = true) →
      send j = SendOutcome.response r → isServerError r.status = false →
      (Execute maxAttempts send).result = Except.ok r ∧
      (Execute maxAttempts send).attempts = j + 1) := by
  refine ⟨?_, ?_, ?_⟩
  · have := executeLoop_attempts_le send maxAttempts 0
      ⟨ErrorKind.transport, none, "no attempt made", ""⟩
    simpa [Execute] using this
  · intro h
    have := executeLoop_all_server_errors send maxAttempts 0
      ⟨ErrorKind.transport, none, "no attempt made", ""⟩ rfl
      (fun k _ hk => h k (by omega))
    simpa [Execute] using this
  · intro j r hj hbefore hsend hr
    exact executeLoop_first_other_response send maxAttempts 0 _ j r (Nat.zero_le _)
      (by omega) (fun k _ hk => hbefore k hk) hsend hr

/-- C12, evaluated with three attempts: a server that always answers 503 gets
exactly three sends and a transport error. -/
theorem C12_bounded_retry_witness :
    (Execute 3 alwaysUnavailable).attempts = 3 ∧
    ∃ e, (Execute 3 alwaysUnavailable).result = Except.error e ∧
      e.kind = ErrorKind.transport :=
  (C12_bounded_retry 3 alwaysUnavailable).2.1
    (fun _ _ => ⟨⟨503, ""⟩, rfl, rfl⟩)

/-- C13: with 25 items and 10 items a page, the loop from page 1 fetches the
pages 1, 2, 3 and ends with `HasMore` reporting no more pages, given fuel for
three pages or more; `Next` keeps the filters and the page size and adds one to
the page number. -/
theorem C13_pagination (filters : List (String × String)) (extra : Nat) (options : ListOptions) :
    visitPages (extra + 3) 25 ⟨1, 10, filters⟩ = ([1, 2, 3], true) ∧
    HasMore ⟨1, 10, filters⟩ 10 25 = true ∧
    HasMore ⟨2, 10, filters⟩ 10 25 = true ∧
    HasMore ⟨3, 10, filters⟩ 5 25 = false ∧
    (Next options).Filters = options.Filters ∧
    (Next options).PerPage = options.PerPage ∧
    (Next options).Page = options.Page + 1 :=
  ⟨rfl, rfl, rfl, rfl, rfl, rfl, rfl⟩

/-! ## Routes and request bodies -/

theorem append_eq_append_iff_right (a s t : String) : a ++ s = a ++ t ↔ s = t := by
  constructor
  · intro h
    have hd := congrArg String.data h
    rw [String.data_append, String.data_append] at hd
    exact String.ext (List.append_cancel_left hd)
  · rintro rfl
    rfl

/-- C14: the firewall `Get` and `GetFirewallGroup` hand `NewRequest` the method
GET, the path `/apps/v2/firewall/group/` followed by the group id and a nil
body, make the same calls and return the same value and error. -/
theorem C14_firewall_getters_coincide (f : firewallGroupServiceHandler) (ctx : Context)
    (fwGroupId : String) :
    (f.Get ctx fwGroupId).calls.head? =
      some (Call.NewRequest ctx "GET" ("/apps/v2/firewall/group/" ++ fwGroupId) Body.nil) ∧
    (f.GetFirewallGroup ctx fwGroupId).calls.head? =
      some (Call.NewRequest ctx "GET" ("/apps/v2/firewall/group/" ++ fwGroupId) Body.nil) ∧
    (f.GetFirewallGroup ctx fwGroupId).calls = (f.Get ctx fwGroupId).calls ∧
    (f.GetFirewallGroup ctx fwGroupId).val = (f.Get ctx fwGroupId).val := by
  have hpath : firewallGroupBasePath ++ "/group/" ++ fwGroupId
      = "/apps/v2/firewall/group/" ++ fwGroupId := by
    have h0 : firewallGroupBasePath ++ "/group/" = "/apps/v2/firewall/group/" := by decide
    rw [h0]
  have hmeth : MethodGet = "GET" := rfl
  refine ⟨?_, ?_, rfl, rfl⟩
  · simp only [firewallGroupServiceHandler.Get, Client.NewRequest, Client.Do, bind, pure,
      hpath, hmeth]
    rfl
  · simp only [firewallGroupServiceHandler.GetFirewallGroup, Client.NewRequest, Client.Do, bind,
      pure, hpath, hmeth]
    rfl

/-- C15: `GetBackupPolicy "all"` hands `NewRequest` the same method, path
`/apps/v2/backups/policy/all` and nil body as `ListBackupPolicies`, while the
two hand `Do` different targets; the path of `GetBackupPolicy` is that path for
no other identifier. -/
theorem C15_backup_policy_routes_collide (b : backupsServiceHandler) (ctx : Context)
    (options : Option ListOptions) (identifier : String) :
    (b.ListBackupPolicies ctx options).calls.head? =
      some (Call.NewRequest ctx "GET" "/apps/v2/backups/policy/all" Body.nil) ∧
    (b.GetBackupPolicy ctx identifier).calls.head? =
      some (Call.NewRequest ctx "GET" ("/apps/v2/backups/policy/" ++ identifier) Body.nil) ∧
    (b.GetBackupPolicy ctx "all").calls.head? = (b.ListBackupPolicies ctx options).calls.head? ∧
    ("/apps/v2/backups/policy/" ++ identifier = "/apps/v2/backups/policy/all" ↔
      identifier = "all") ∧
    ((b.client.newRequestFn ctx "GET" "/apps/v2/backups/policy/all" Body.nil).2 = none →
      (b.GetBackupPolicy ctx "all").calls =
        [Call.NewRequest ctx "GET" "/apps/v2/backups/policy/all" Body.nil,
         Call.Do ctx (b.client.newRequestFn ctx "GET" "/apps/v2/backups/policy/all" Body.nil).1
           Target.getBackupPolicyRoot default] ∧
      (b.ListBackupPolicies ctx options).calls =
        [Call.NewRequest ctx "GET" "/apps/v2/backups/policy/all" Body.nil,
         Call.Do ctx (b.client.newRequestFn ctx "GET" "/apps/v2/backups/policy/all" Body.nil).1
           Target.listBackupPoliciesRoot default]) ∧
    Target.getBackupPolicyRoot ≠ Target.listBackupPoliciesRoot := by
  have hall : backupsPath ++ "/backups/policy/all" = "/apps/v2/backups/policy/all" := by decide
  have hpath : ∀ id : String, backupsPath ++ "/backups/policy/" ++ id
      = "/apps/v2/backups/policy/" ++ id := by
    intro id
    have h0 : backupsPath ++ "/backups/policy/" = "/apps/v2/backups/policy/" := by decide
    rw [h0]
  have hlit : "/apps/v2/backups/policy/" ++ "all" = "/apps/v2/backups/policy/all" := by decide
  have hmeth : MethodGet = "GET" := rfl
  refine ⟨?_, ?_, ?_, ?_, ?_, by decide⟩
  · simp only [backupsServiceHandler.ListBackupPolicies, Client.NewRequest, Client.Do, bind,
      pure, hall, hmeth]
    rfl
  · simp only [backupsServiceHandler.GetBackupPolicy, Client.NewRequest, Client.Do, bind,
      pure, hpath, hmeth]
    rfl
  · simp only [backupsServiceHandler.GetBackupPolicy, backupsServiceHandler.ListBackupPolicies,
      Client.NewRequest, Client.Do, bind, pure, hall, hpath, hlit, hmeth]
    rfl
  · rw [← hlit]
    exact append_eq_append_iff_right _ _ _
  · intro h1
    constructor
    · simp only [backupsServiceHandler.GetBackupPolicy, Client.NewRequest, Client.Do, bind,
        pure, hpath, hlit, hmeth, h1]
      split <;> rfl
    · simp only [backupsServiceHandler.ListBackupPolicies, Client.NewRequest, Client.Do, bind,
        pure, hall, hmeth, h1]
      split <;> rfl

/-- C16: `CreateBackups` hands `NewRequest` the method POST, the path
`/apps/v2/backup/add` and a body with the two fields `vmIdentifier` and `name`;
its calls and its result are the same for any two values of `notes`. -/
theorem C16_CreateBackups_ignores_notes (b : backupsServiceHandler) (ctx : Context)
    (vmIdentifier name notes1 notes2 : String) :
    (b.CreateBackups ctx vmIdentifier name notes1).calls.head? =
      some (Call.NewRequest ctx "POST" "/apps/v2/backup/add"
        (Body.structPtr [("vmIdentifier", FieldVal.str vmIdentifier),
          ("name", FieldVal.str name)])) ∧
    (b.CreateBackups ctx vmIdentifier name notes1).calls =
      (b.CreateBackups ctx vmIdentifier name notes2).calls ∧
    (b.CreateBackups ctx vmIdentifier name notes1).val =
      (b.CreateBackups ctx vmIdentifier name notes2).val := by
  have hpath : backupsPath ++ "/backup/add" = "/apps/v2/backup/add" := by decide
  have hmeth : MethodPost = "POST" := rfl
  refine ⟨?_, rfl, rfl⟩
  simp only [backupsServiceHandler.CreateBackups, Client.NewRequest, Client.Do, bind, pure,
    hpath, hmeth]
  rfl

end GoVPSie
